import Mathlib

/-!
# Map.h of esp8266-fastled-webserver: coordinate tables and angular/radial selectors

A shallow embedding of `Map.h`: the per-board constant tables, the 8-bit helper
arithmetic the header calls, the pixel selectors `setPixelAR`, `andPixelAR`
and `antialiasPixelAR`, the spiral line drawer `drawSpiralLine`, the palette effects and the
radii of `drawAnalogClock`, followed by the properties proved about them.

Conventions.
* `uint8_t` is `U8 = Fin 256`; conversions to `uint8_t` are explicit reductions modulo 256.
* `int` is `Int`, with sums and differences reduced to 32 bits by `toInt32`.
* A `while` loop takes a fuel bound and returns `none` when the fuel does not suffice.
* Table entries are kept as the natural numbers written in the header.
* The pixel buffer `leds` is a `List CRGB` that each routine takes and returns.
-/

namespace FibonacciMap

/-! ## Board tables (Map.h lines 54-99) -/

namespace FIBONACCI512

/-- Pixel count of this board: the length every table below is declared with. -/
def NUM_PIXELS : Nat := 512

/-- Table `const uint16_t physicalToFibonacci[NUM_PIXELS]` of FIBONACCI512. -/
def physicalToFibonacci : List Nat := [
  510, 476, 442, 408, 374, 340, 306, 272, 238, 204, 170, 136, 102, 68, 34, 0, 13, 47, 81, 115, 149, 183, 217, 251,
  285, 319, 353, 387, 421, 455, 489, 502, 468, 434, 400, 366, 332, 298, 264, 230, 196, 162, 128, 94, 60, 26, 5, 39,
  73, 107, 141, 175, 209, 243, 277, 311, 345, 379, 413, 447, 481, 494, 460, 426, 392, 358, 324, 290, 256, 222, 188, 154,
  120, 86, 52, 18, 31, 65, 99, 133, 167, 201, 235, 269, 303, 337, 371, 405, 439, 473, 507, 486, 452, 418, 384, 350,
  316, 282, 248, 214, 180, 146, 112, 78, 44, 10, 23, 57, 91, 125, 159, 193, 227, 261, 295, 329, 363, 397, 431, 465,
  499, 478, 444, 410, 376, 342, 308, 274, 240, 206, 172, 138, 104, 70, 36, 2, 15, 49, 83, 117, 151, 185, 219, 253,
  287, 321, 355, 389, 423, 457, 491, 504, 470, 436, 402, 368, 334, 300, 266, 232, 198, 164, 130, 96, 62, 28, 7, 41,
  75, 109, 143, 177, 211, 245, 279, 313, 347, 381, 415, 449, 483, 496, 462, 428, 394, 360, 326, 292, 258, 224, 190, 156,
  122, 88, 54, 20, 33, 67, 101, 135, 169, 203, 237, 271, 305, 339, 373, 407, 441, 475, 509, 488, 454, 420, 386, 352,
  318, 284, 250, 216, 182, 148, 114, 80, 46, 12, 25, 59, 93, 127, 161, 195, 229, 263, 297, 331, 365, 399, 433, 467,
  501, 480, 446, 412, 378, 344, 310, 276, 242, 208, 174, 140, 106, 72, 38, 4, 17, 51, 85, 119, 153, 187, 221, 255,
  289, 323, 357, 391, 425, 459, 493, 506, 472, 438, 404, 370, 336, 302, 268, 234, 200, 166, 132, 98, 64, 30, 9, 43,
  77, 111, 145, 179, 213, 247, 281, 315, 349, 383, 417, 451, 485, 498, 464, 430, 396, 362, 328, 294, 260, 226, 192, 158,
  124, 90, 56, 22, 1, 35, 69, 103, 137, 171, 205, 239, 273, 307, 341, 375, 409, 443, 477, 511, 490, 456, 422, 388,
  354, 320, 286, 252, 218, 184, 150, 116, 82, 48, 14, 27, 61, 95, 129, 163, 197, 231, 265, 299, 333, 367, 401, 435,
  469, 503, 482, 448, 414, 380, 346, 312, 278, 244, 210, 176, 142, 108, 74, 40, 6, 19, 53, 87, 121, 155, 189, 223,
  257, 291, 325, 359, 393, 427, 461, 495, 508, 474, 440, 406, 372, 338, 304, 270, 236, 202, 168, 134, 100, 66, 32, 11,
  45, 79, 113, 147, 181, 215, 249, 283, 317, 351, 385, 419, 453, 487, 500, 466, 432, 398, 364, 330, 296, 262, 228, 194,
  160, 126, 92, 58, 24, 3, 37, 71, 105, 139, 173, 207, 241, 275, 309, 343, 377, 411, 445, 479, 492, 458, 424, 390,
  356, 322, 288, 254, 220, 186, 152, 118, 84, 50, 16, 29, 63, 97, 131, 165, 199, 233, 267, 301, 335, 369, 403, 437,
  471, 505, 484, 450, 416, 382, 348, 314, 280, 246, 212, 178, 144, 110, 76, 42, 8, 21, 55, 89, 123, 157, 191, 225,
  259, 293, 327, 361, 395, 429, 463, 497]

/-- Table `const uint16_t fibonacciToPhysical[NUM_PIXELS]` of FIBONACCI512. -/
def fibonacciToPhysical : List Nat := [
  15, 316, 135, 437, 255, 46, 376, 166, 496, 286, 105, 407, 225, 16, 346, 136, 466, 256, 75, 377, 195, 497, 315, 106,
  436, 226, 45, 347, 165, 467, 285, 76, 406, 196, 14, 317, 134, 438, 254, 47, 375, 167, 495, 287, 104, 408, 224, 17,
  345, 137, 465, 257, 74, 378, 194, 498, 314, 107, 435, 227, 44, 348, 164, 468, 284, 77, 405, 197, 13, 318, 133, 439,
  253, 48, 374, 168, 494, 288, 103, 409, 223, 18, 344, 138, 464, 258, 73, 379, 193, 499, 313, 108, 434, 228, 43, 349,
  163, 469, 283, 78, 404, 198, 12, 319, 132, 440, 252, 49, 373, 169, 493, 289, 102, 410, 222, 19, 343, 139, 463, 259,
  72, 380, 192, 500, 312, 109, 433, 229, 42, 350, 162, 470, 282, 79, 403, 199, 11, 320, 131, 441, 251, 50, 372, 170,
  492, 290, 101, 411, 221, 20, 342, 140, 462, 260, 71, 381, 191, 501, 311, 110, 432, 230, 41, 351, 161, 471, 281, 80,
  402, 200, 10, 321, 130, 442, 250, 51, 371, 171, 491, 291, 100, 412, 220, 21, 341, 141, 461, 261, 70, 382, 190, 502,
  310, 111, 431, 231, 40, 352, 160, 472, 280, 81, 401, 201, 9, 322, 129, 443, 249, 52, 370, 172, 490, 292, 99, 413,
  219, 22, 340, 142, 460, 262, 69, 383, 189, 503, 309, 112, 430, 232, 39, 353, 159, 473, 279, 82, 400, 202, 8, 323,
  128, 444, 248, 53, 369, 173, 489, 293, 98, 414, 218, 23, 339, 143, 459, 263, 68, 384, 188, 504, 308, 113, 429, 233,
  38, 354, 158, 474, 278, 83, 399, 203, 7, 324, 127, 445, 247, 54, 368, 174, 488, 294, 97, 415, 217, 24, 338, 144,
  458, 264, 67, 385, 187, 505, 307, 114, 428, 234, 37, 355, 157, 475, 277, 84, 398, 204, 6, 325, 126, 446, 246, 55,
  367, 175, 487, 295, 96, 416, 216, 25, 337, 145, 457, 265, 66, 386, 186, 506, 306, 115, 427, 235, 36, 356, 156, 476,
  276, 85, 397, 205, 5, 326, 125, 447, 245, 56, 366, 176, 486, 296, 95, 417, 215, 26, 336, 146, 456, 266, 65, 387,
  185, 507, 305, 116, 426, 236, 35, 357, 155, 477, 275, 86, 396, 206, 4, 327, 124, 448, 244, 57, 365, 177, 485, 297,
  94, 418, 214, 27, 335, 147, 455, 267, 64, 388, 184, 508, 304, 117, 425, 237, 34, 358, 154, 478, 274, 87, 395, 207,
  3, 328, 123, 449, 243, 58, 364, 178, 484, 298, 93, 419, 213, 28, 334, 148, 454, 268, 63, 389, 183, 509, 303, 118,
  424, 238, 33, 359, 153, 479, 273, 88, 394, 208, 2, 329, 122, 450, 242, 59, 363, 179, 483, 299, 92, 420, 212, 29,
  333, 149, 453, 269, 62, 390, 182, 510, 302, 119, 423, 239, 32, 360, 152, 480, 272, 89, 393, 209, 1, 330, 121, 451,
  241, 60, 362, 180, 482, 300, 91, 421, 211, 30, 332, 150, 452, 270, 61, 391, 181, 511, 301, 120, 422, 240, 31, 361,
  151, 481, 271, 90, 392, 210, 0, 331]

/-- Table `const uint8_t coordsX[NUM_PIXELS]` of FIBONACCI512. -/
def coordsX : List Nat := [
  170, 178, 185, 191, 196, 199, 202, 202, 202, 200, 196, 191, 184, 175, 161, 132, 148, 166, 176, 183, 188, 190, 192, 191,
  190, 186, 182, 176, 170, 162, 153, 125, 136, 145, 154, 161, 168, 173, 177, 180, 181, 181, 178, 174, 167, 155, 139, 157,
  164, 169, 170, 170, 168, 165, 160, 154, 147, 139, 129, 119, 109, 82, 93, 104, 114, 124, 132, 140, 147, 152, 157, 159,
  160, 159, 155, 145, 145, 150, 150, 149, 146, 141, 135, 127, 119, 110, 100, 90, 79, 68, 57, 45, 56, 66, 77, 87,
  97, 107, 115, 123, 130, 135, 139, 142, 141, 136, 134, 134, 131, 126, 120, 113, 105, 96, 86, 76, 66, 56, 45, 35,
  25, 18, 27, 37, 47, 57, 67, 77, 86, 95, 104, 112, 119, 124, 128, 129, 125, 120, 113, 105, 97, 88, 78, 69,
  59, 50, 40, 31, 22, 14, 6, 0, 6, 12, 19, 27, 35, 44, 54, 63, 73, 82, 91, 101, 109, 118, 121, 108,
  98, 88, 78, 69, 59, 50, 41, 33, 25, 18, 12, 7, 3, 6, 8, 11, 15, 20, 26, 33, 40, 48, 57, 67,
  77, 87, 98, 111, 102, 89, 77, 67, 58, 49, 41, 34, 28, 23, 19, 16, 15, 14, 15, 26, 24, 23, 24, 26,
  28, 33, 38, 44, 51, 60, 69, 80, 93, 111, 100, 85, 73, 64, 55, 49, 43, 39, 36, 34, 33, 34, 36, 39,
  43, 58, 53, 49, 45, 44, 43, 44, 46, 50, 55, 61, 69, 79, 93, 116, 104, 87, 76, 68, 62, 58, 55, 54,
  54, 55, 58, 62, 68, 74, 82, 108, 99, 90, 83, 77, 72, 68, 65, 64, 65, 67, 70, 76, 85, 97, 112, 94,
  85, 80, 76, 75, 75, 77, 81, 85, 91, 98, 106, 115, 125, 153, 142, 131, 122, 113, 105, 99, 93, 89, 87, 85,
  86, 89, 95, 106, 123, 105, 99, 96, 96, 98, 101, 106, 112, 119, 128, 137, 147, 157, 168, 180, 193, 182, 171, 161,
  151, 141, 133, 125, 118, 113, 108, 106, 106, 108, 115, 116, 114, 115, 118, 123, 129, 137, 145, 154, 164, 174, 184, 195,
  206, 216, 226, 216, 205, 195, 185, 175, 165, 156, 147, 139, 133, 127, 123, 121, 124, 127, 129, 134, 141, 148, 156, 165,
  174, 184, 194, 204, 214, 224, 233, 242, 253, 246, 238, 229, 221, 211, 202, 192, 182, 173, 164, 155, 147, 140, 133, 134,
  142, 151, 160, 169, 179, 188, 198, 207, 216, 225, 233, 241, 247, 253, 255, 251, 247, 241, 234, 227, 219, 210, 201, 192,
  182, 173, 163, 153, 142, 134, 151, 163, 174, 184, 194, 203, 212, 220, 227, 233, 239, 243, 247, 249, 242, 242, 241, 238,
  235, 230, 225, 218, 211, 203, 194, 184, 173, 161, 146, 155, 170, 182, 192, 201, 208, 215, 221, 226, 229, 231, 232, 232,
  231, 228, 215, 219, 221, 223, 223, 221, 219, 215, 210, 204, 197, 188, 177, 164, 144, 154, 170, 182, 191, 198, 204, 208,
  211, 212, 213, 212, 209, 205, 200, 194]

/-- Table `const uint8_t coordsY[NUM_PIXELS]` of FIBONACCI512. -/
def coordsY : List Nat := [
  6, 14, 22, 31, 41, 50, 60, 70, 80, 89, 98, 106, 114, 120, 125, 128, 124, 116, 109, 101, 92, 82, 73, 63,
  54, 44, 35, 27, 18, 11, 4, 0, 5, 10, 17, 24, 32, 40, 49, 59, 68, 78, 87, 97, 106, 116, 121, 106,
  95, 85, 75, 65, 56, 47, 38, 31, 24, 17, 12, 7, 4, 10, 10, 13, 16, 20, 25, 31, 39, 46, 55, 64,
  74, 85, 96, 111, 101, 87, 76, 65, 56, 48, 41, 34, 29, 25, 21, 20, 19, 19, 21, 33, 30, 29, 28, 29,
  31, 34, 39, 45, 51, 59, 69, 79, 92, 111, 101, 85, 73, 64, 56, 50, 45, 41, 39, 38, 38, 40, 43, 47,
  52, 68, 62, 56, 53, 50, 49, 49, 50, 53, 57, 63, 70, 80, 94, 119, 106, 89, 78, 70, 65, 61, 59, 59,
  60, 62, 66, 71, 77, 84, 92, 119, 109, 100, 92, 85, 80, 75, 72, 70, 70, 71, 74, 79, 87, 99, 114, 97,
  88, 83, 81, 80, 81, 84, 88, 94, 100, 108, 116, 126, 136, 163, 152, 142, 132, 123, 114, 107, 101, 96, 93, 91,
  91, 93, 98, 108, 108, 102, 101, 101, 104, 108, 114, 120, 128, 137, 146, 157, 167, 178, 190, 203, 192, 181, 170, 160,
  150, 141, 133, 126, 119, 115, 111, 110, 111, 118, 119, 118, 120, 124, 130, 136, 144, 153, 162, 172, 182, 193, 203, 214,
  224, 232, 223, 213, 202, 192, 182, 172, 163, 154, 146, 139, 132, 128, 125, 126, 129, 133, 139, 146, 154, 162, 172, 181,
  191, 201, 210, 220, 229, 238, 246, 255, 249, 242, 234, 225, 216, 207, 197, 188, 178, 169, 160, 151, 143, 136, 135, 145,
  155, 164, 174, 183, 193, 202, 211, 220, 228, 236, 243, 249, 254, 253, 250, 246, 242, 236, 229, 222, 213, 205, 196, 186,
  176, 166, 155, 143, 133, 153, 166, 177, 187, 196, 205, 214, 221, 228, 234, 238, 242, 245, 246, 246, 236, 237, 237, 236,
  233, 229, 225, 219, 212, 204, 195, 186, 175, 162, 146, 156, 171, 182, 192, 201, 208, 214, 220, 223, 226, 228, 228, 227,
  224, 221, 207, 211, 215, 217, 218, 218, 216, 213, 209, 203, 196, 187, 177, 164, 142, 153, 170, 181, 190, 196, 201, 205,
  207, 208, 207, 205, 202, 197, 191, 184, 159, 168, 176, 182, 188, 192, 195, 197, 197, 196, 193, 189, 182, 173, 160, 146,
  164, 173, 180, 184, 186, 186, 185, 183, 179, 174, 167, 160, 151, 142, 114, 125, 135, 144, 152, 159, 165, 170, 173, 175,
  176, 174, 171, 164, 153, 136, 154, 161, 164, 165, 164, 162, 157, 152, 145, 138, 129, 119, 109, 98, 72, 83, 94, 105,
  114, 124, 132, 139, 145, 150, 153, 155, 155, 152, 143, 142, 146, 146, 143, 139, 134, 127, 119, 110, 101, 91, 81, 70,
  59, 48, 37, 48, 58, 69, 79, 89, 99, 108, 116, 123, 129, 134, 137, 138, 134, 132, 130, 126, 121, 114, 106, 98,
  88, 79, 69, 59, 48, 38, 29, 19]

/-- Table `const uint8_t angles[NUM_PIXELS]` of FIBONACCI512. -/
def angles : List Nat := [
  205, 208, 211, 215, 218, 221, 225, 228, 231, 235, 238, 242, 245, 248, 252, 255, 246, 243, 239, 236, 233, 229, 226, 223,
  219, 216, 213, 209, 206, 203, 199, 190, 194, 197, 200, 204, 207, 211, 214, 217, 221, 224, 227, 231, 234, 237, 232, 229,
  225, 222, 219, 215, 212, 208, 205, 202, 198, 195, 192, 188, 185, 176, 180, 183, 186, 190, 193, 196, 200, 203, 206, 210,
  213, 216, 220, 223, 214, 211, 208, 204, 201, 198, 194, 191, 188, 184, 181, 177, 174, 171, 167, 162, 165, 169, 172, 175,
  179, 182, 185, 189, 192, 196, 199, 202, 206, 209, 200, 197, 193, 190, 187, 183, 180, 177, 173, 170, 167, 163, 160, 157,
  153, 148, 151, 154, 158, 161, 165, 168, 171, 175, 178, 181, 185, 188, 191, 195, 186, 183, 179, 176, 173, 169, 166, 162,
  159, 156, 152, 149, 146, 142, 139, 130, 133, 137, 140, 144, 147, 150, 154, 157, 160, 164, 167, 170, 174, 177, 172, 168,
  165, 162, 158, 155, 152, 148, 145, 141, 138, 135, 131, 128, 125, 116, 119, 123, 126, 129, 133, 136, 139, 143, 146, 149,
  153, 156, 160, 163, 154, 151, 147, 144, 141, 137, 134, 131, 127, 124, 121, 117, 114, 110, 107, 102, 105, 108, 112, 115,
  118, 122, 125, 129, 132, 135, 139, 142, 145, 149, 140, 137, 133, 130, 126, 123, 120, 116, 113, 110, 106, 103, 100, 96,
  93, 87, 91, 94, 98, 101, 104, 108, 111, 114, 118, 121, 124, 128, 131, 134, 126, 122, 119, 116, 112, 109, 106, 102,
  99, 95, 92, 89, 85, 82, 79, 70, 73, 77, 80, 83, 87, 90, 93, 97, 100, 103, 107, 110, 114, 117, 111, 108,
  105, 101, 98, 95, 91, 88, 85, 81, 78, 74, 71, 68, 64, 56, 59, 62, 66, 69, 72, 76, 79, 82, 86, 89,
  93, 96, 99, 103, 97, 94, 90, 87, 84, 80, 77, 74, 70, 67, 64, 60, 57, 54, 50, 47, 41, 45, 48, 51,
  55, 58, 62, 65, 68, 72, 75, 78, 82, 85, 88, 80, 76, 73, 70, 66, 63, 59, 56, 53, 49, 46, 43, 39,
  36, 33, 27, 31, 34, 37, 41, 44, 47, 51, 54, 57, 61, 64, 67, 71, 74, 65, 62, 59, 55, 52, 49, 45,
  42, 39, 35, 32, 28, 25, 22, 18, 10, 13, 16, 20, 23, 26, 30, 33, 36, 40, 43, 47, 50, 53, 57, 51,
  48, 44, 41, 38, 34, 31, 28, 24, 21, 18, 14, 11, 8, 4, 251, 254, 2, 5, 9, 12, 16, 19, 22, 26,
  29, 32, 36, 39, 42, 37, 34, 30, 27, 24, 20, 17, 13, 10, 7, 3, 0, 252, 249, 245, 236, 240, 243, 247,
  250, 253, 1, 5, 8, 11, 15, 18, 21, 25, 28, 19, 16, 13, 9, 6, 3, 255, 251, 248, 244, 241, 238, 234,
  231, 228, 222, 226, 229, 232, 236, 239, 242, 246, 249, 252, 0, 4, 7, 11, 14, 5, 2, 254, 250, 247, 244, 240,
  237, 234, 230, 227, 223, 220, 217, 213]

end FIBONACCI512

namespace FIBONACCI256

/-- Pixel count of this board: the length every table below is declared with. -/
def NUM_PIXELS : Nat := 256

/-- Table `const uint8_t physicalToFibonacci[NUM_PIXELS]` of FIBONACCI256. -/
def physicalToFibonacci : List Nat := [
  0, 13, 26, 39, 52, 65, 78, 91, 104, 117, 130, 143, 156, 169, 182, 195, 208, 221, 234, 247, 252, 239, 226, 213,
  200, 187, 174, 161, 148, 135, 122, 109, 96, 83, 70, 57, 44, 31, 18, 5, 10, 23, 36, 49, 62, 75, 88, 101,
  114, 127, 140, 153, 166, 179, 192, 205, 218, 231, 244, 249, 236, 223, 210, 197, 184, 171, 158, 145, 132, 119, 106, 93,
  80, 67, 54, 41, 28, 15, 2, 7, 20, 33, 46, 59, 72, 85, 98, 111, 124, 137, 150, 163, 176, 189, 202, 215,
  228, 241, 254, 246, 233, 220, 207, 194, 181, 168, 155, 142, 129, 116, 103, 90, 77, 64, 51, 38, 25, 12, 4, 17,
  30, 43, 56, 69, 82, 95, 108, 121, 134, 147, 160, 173, 186, 199, 212, 225, 238, 251, 243, 230, 217, 204, 191, 178,
  165, 152, 139, 126, 113, 100, 87, 74, 61, 48, 35, 22, 9, 1, 14, 27, 40, 53, 66, 79, 92, 105, 118, 131,
  144, 157, 170, 183, 196, 209, 222, 235, 248, 253, 240, 227, 214, 201, 188, 175, 162, 149, 136, 123, 110, 97, 84, 71,
  58, 45, 32, 19, 6, 11, 24, 37, 50, 63, 76, 89, 102, 115, 128, 141, 154, 167, 180, 193, 206, 219, 232, 245,
  250, 237, 224, 211, 198, 185, 172, 159, 146, 133, 120, 107, 94, 81, 68, 55, 42, 29, 16, 3, 8, 21, 34, 47,
  60, 73, 86, 99, 112, 125, 138, 151, 164, 177, 190, 203, 216, 229, 242, 255]

/-- Table `const uint8_t fibonacciToPhysical[NUM_PIXELS]` of FIBONACCI256. -/
def fibonacciToPhysical : List Nat := [
  0, 157, 78, 235, 118, 39, 196, 79, 236, 156, 40, 197, 117, 1, 158, 77, 234, 119, 38, 195, 80, 237, 155, 41,
  198, 116, 2, 159, 76, 233, 120, 37, 194, 81, 238, 154, 42, 199, 115, 3, 160, 75, 232, 121, 36, 193, 82, 239,
  153, 43, 200, 114, 4, 161, 74, 231, 122, 35, 192, 83, 240, 152, 44, 201, 113, 5, 162, 73, 230, 123, 34, 191,
  84, 241, 151, 45, 202, 112, 6, 163, 72, 229, 124, 33, 190, 85, 242, 150, 46, 203, 111, 7, 164, 71, 228, 125,
  32, 189, 86, 243, 149, 47, 204, 110, 8, 165, 70, 227, 126, 31, 188, 87, 244, 148, 48, 205, 109, 9, 166, 69,
  226, 127, 30, 187, 88, 245, 147, 49, 206, 108, 10, 167, 68, 225, 128, 29, 186, 89, 246, 146, 50, 207, 107, 11,
  168, 67, 224, 129, 28, 185, 90, 247, 145, 51, 208, 106, 12, 169, 66, 223, 130, 27, 184, 91, 248, 144, 52, 209,
  105, 13, 170, 65, 222, 131, 26, 183, 92, 249, 143, 53, 210, 104, 14, 171, 64, 221, 132, 25, 182, 93, 250, 142,
  54, 211, 103, 15, 172, 63, 220, 133, 24, 181, 94, 251, 141, 55, 212, 102, 16, 173, 62, 219, 134, 23, 180, 95,
  252, 140, 56, 213, 101, 17, 174, 61, 218, 135, 22, 179, 96, 253, 139, 57, 214, 100, 18, 175, 60, 217, 136, 21,
  178, 97, 254, 138, 58, 215, 99, 19, 176, 59, 216, 137, 20, 177, 98, 255]

/-- Table `const uint8_t coordsX[NUM_PIXELS]` of FIBONACCI256. -/
def coordsX : List Nat := [
  133, 156, 165, 168, 165, 158, 147, 132, 114, 95, 76, 57, 41, 28, 19, 15, 17, 24, 37, 56, 123, 96, 73, 53,
  38, 28, 24, 25, 31, 41, 55, 71, 89, 106, 122, 136, 146, 152, 152, 143, 138, 136, 128, 115, 101, 85, 70, 56,
  44, 37, 33, 34, 41, 53, 69, 90, 114, 140, 167, 226, 204, 180, 154, 129, 106, 85, 67, 54, 46, 43, 44, 50,
  60, 72, 86, 100, 113, 123, 128, 117, 104, 90, 78, 67, 59, 54, 54, 59, 68, 82, 100, 121, 143, 167, 191, 212,
  231, 246, 255, 251, 251, 245, 233, 218, 199, 178, 156, 134, 114, 96, 82, 73, 67, 66, 70, 78, 89, 103, 111, 94,
  84, 80, 81, 86, 96, 109, 126, 145, 165, 185, 204, 220, 233, 241, 244, 241, 232, 217, 179, 201, 217, 229, 235, 235,
  230, 220, 207, 190, 172, 154, 136, 121, 108, 99, 95, 96, 104, 120, 110, 111, 118, 130, 144, 160, 176, 192, 206, 217,
  224, 227, 224, 216, 202, 184, 162, 137, 110, 44, 68, 94, 120, 145, 168, 187, 202, 212, 216, 216, 212, 203, 191, 177,
  162, 148, 135, 126, 122, 136, 147, 161, 174, 186, 197, 204, 206, 205, 198, 187, 172, 152, 130, 106, 81, 58, 36, 17,
  0, 5, 15, 30, 49, 71, 93, 116, 138, 157, 173, 185, 192, 195, 193, 187, 178, 166, 152, 137, 149, 164, 175, 180,
  182, 179, 171, 159, 143, 125, 105, 83, 63, 44, 28, 16, 9, 7, 12, 23]

/-- Table `const uint8_t coordsY[NUM_PIXELS]` of FIBONACCI256. -/
def coordsY : List Nat := [
  126, 120, 109, 96, 82, 69, 57, 49, 45, 45, 50, 59, 74, 92, 114, 138, 163, 188, 211, 231, 255, 248, 235, 218,
  198, 175, 152, 129, 107, 89, 74, 63, 57, 56, 59, 66, 76, 88, 102, 116, 103, 88, 77, 71, 68, 70, 77, 88,
  103, 121, 141, 163, 184, 205, 222, 236, 245, 249, 247, 208, 224, 235, 241, 240, 234, 223, 209, 191, 172, 152, 132, 115,
  101, 90, 84, 82, 86, 95, 114, 107, 98, 98, 103, 112, 126, 142, 159, 177, 195, 210, 222, 230, 233, 230, 223, 209,
  191, 168, 142, 98, 125, 151, 174, 194, 209, 219, 223, 223, 218, 208, 195, 180, 164, 148, 134, 122, 114, 112, 123, 128,
  138, 151, 165, 180, 193, 203, 211, 214, 212, 206, 194, 178, 158, 134, 109, 83, 58, 35, 11, 28, 48, 71, 95, 120,
  142, 163, 179, 192, 200, 203, 202, 196, 187, 175, 162, 148, 136, 133, 152, 166, 177, 186, 190, 191, 187, 178, 165, 148,
  128, 107, 84, 62, 41, 24, 11, 2, 0, 28, 16, 9, 8, 13, 23, 37, 55, 75, 96, 116, 135, 151, 164, 173,
  177, 177, 172, 162, 146, 153, 161, 163, 160, 152, 139, 124, 106, 87, 69, 51, 36, 25, 18, 16, 20, 29, 44, 64,
  133, 106, 81, 60, 44, 32, 26, 25, 29, 38, 50, 65, 82, 99, 115, 129, 140, 147, 148, 138, 134, 131, 122, 110,
  95, 80, 65, 52, 42, 36, 34, 37, 45, 59, 77, 98, 123, 149, 176, 202]

/-- Table `const uint8_t angles[NUM_PIXELS]` of FIBONACCI256. -/
def angles : List Nat := [
  0, 247, 238, 229, 220, 211, 203, 194, 185, 176, 167, 159, 150, 141, 132, 123, 115, 106, 97, 88, 65, 74, 83, 92,
  100, 109, 118, 127, 136, 144, 153, 162, 171, 180, 188, 197, 206, 215, 224, 232, 209, 201, 192, 183, 174, 165, 157, 148,
  139, 130, 121, 113, 104, 95, 86, 77, 69, 60, 51, 28, 37, 46, 54, 63, 72, 81, 90, 98, 107, 116, 125, 134,
  142, 151, 160, 169, 178, 186, 195, 172, 163, 155, 146, 137, 128, 119, 111, 102, 93, 84, 75, 67, 58, 49, 40, 31,
  23, 14, 5, 246, 255, 8, 17, 26, 35, 44, 52, 61, 70, 79, 88, 96, 105, 114, 123, 132, 140, 149, 135, 126,
  117, 108, 100, 91, 82, 73, 64, 56, 47, 38, 29, 20, 12, 3, 250, 241, 232, 223, 209, 218, 227, 235, 244, 253,
  6, 15, 24, 33, 41, 50, 59, 68, 77, 85, 94, 103, 112, 98, 89, 80, 71, 62, 54, 45, 36, 27, 18, 10,
  1, 247, 239, 230, 221, 212, 203, 195, 186, 163, 172, 180, 189, 198, 207, 216, 224, 233, 242, 251, 4, 13, 22, 31,
  39, 48, 57, 66, 75, 52, 43, 34, 25, 16, 8, 254, 245, 237, 228, 219, 210, 201, 193, 184, 175, 166, 157, 149,
  126, 134, 143, 152, 161, 170, 178, 187, 196, 205, 214, 222, 231, 240, 249, 2, 11, 20, 28, 37, 14, 5, 252, 243,
  235, 226, 217, 208, 199, 191, 182, 173, 164, 155, 147, 138, 129, 120, 111, 103]

end FIBONACCI256

namespace FIBONACCI128

/-- Pixel count of this board: the length every table below is declared with. -/
def NUM_PIXELS : Nat := 128

/-- Table `const uint8_t physicalToFibonacci[NUM_PIXELS]` of FIBONACCI128. -/
def physicalToFibonacci : List Nat := [
  0, 13, 26, 39, 52, 65, 78, 91, 104, 117, 122, 109, 96, 83, 70, 57, 44, 31, 18, 5, 10, 23, 36, 49,
  62, 75, 88, 101, 114, 127, 119, 106, 93, 80, 67, 54, 41, 28, 15, 2, 7, 20, 33, 46, 59, 72, 85, 98,
  111, 124, 116, 103, 90, 77, 64, 51, 38, 25, 12, 4, 17, 30, 43, 56, 69, 82, 95, 108, 121, 126, 113, 100,
  87, 74, 61, 48, 35, 22, 9, 1, 14, 27, 40, 53, 66, 79, 92, 105, 118, 123, 110, 97, 84, 71, 58, 45,
  32, 19, 6, 11, 24, 37, 50, 63, 76, 89, 102, 115, 120, 107, 94, 81, 68, 55, 42, 29, 16, 3, 8, 21,
  34, 47, 60, 73, 86, 99, 112, 125]

/-- Table `const uint8_t fibonacciToPhysical[NUM_PIXELS]` of FIBONACCI128. -/
def fibonacciToPhysical : List Nat := [
  0, 79, 39, 117, 59, 19, 98, 40, 118, 78, 20, 99, 58, 1, 80, 38, 116, 60, 18, 97, 41, 119, 77, 21,
  100, 57, 2, 81, 37, 115, 61, 17, 96, 42, 120, 76, 22, 101, 56, 3, 82, 36, 114, 62, 16, 95, 43, 121,
  75, 23, 102, 55, 4, 83, 35, 113, 63, 15, 94, 44, 122, 74, 24, 103, 54, 5, 84, 34, 112, 64, 14, 93,
  45, 123, 73, 25, 104, 53, 6, 85, 33, 111, 65, 13, 92, 46, 124, 72, 26, 105, 52, 7, 86, 32, 110, 66,
  12, 91, 47, 125, 71, 27, 106, 51, 8, 87, 31, 109, 67, 11, 90, 48, 126, 70, 28, 107, 50, 9, 88, 30,
  108, 68, 10, 89, 49, 127, 69, 29]

/-- Table `const uint8_t coordsX[NUM_PIXELS]` of FIBONACCI128. -/
def coordsX : List Nat := [
  137, 170, 182, 186, 182, 172, 156, 135, 110, 83, 26, 49, 74, 99, 121, 141, 155, 164, 164, 151, 145, 141, 129, 112,
  91, 69, 47, 27, 11, 0, 9, 11, 19, 33, 50, 70, 90, 108, 123, 130, 114, 96, 77, 58, 43, 32, 25, 25,
  32, 45, 85, 65, 51, 43, 42, 47, 58, 74, 94, 105, 81, 68, 62, 63, 70, 84, 103, 127, 154, 218, 193, 167,
  142, 119, 101, 89, 83, 84, 96, 118, 104, 106, 116, 132, 152, 175, 198, 221, 241, 255, 248, 236, 219, 199, 178, 158,
  140, 126, 121, 140, 157, 176, 195, 213, 227, 237, 241, 239, 193, 210, 221, 225, 222, 214, 201, 184, 164, 142, 160, 181,
  196, 204, 206, 202, 191, 174, 152, 125]

/-- Table `const uint8_t coordsY[NUM_PIXELS]` of FIBONACCI128. -/
def coordsY : List Nat := [
  130, 121, 105, 86, 66, 47, 31, 19, 13, 13, 55, 39, 30, 28, 33, 43, 57, 75, 95, 115, 96, 75, 60, 50,
  46, 49, 59, 74, 96, 122, 166, 139, 114, 93, 78, 69, 67, 72, 85, 112, 102, 90, 89, 96, 110, 129, 152, 177,
  203, 227, 247, 228, 207, 184, 161, 140, 123, 112, 109, 126, 132, 146, 165, 185, 206, 225, 240, 251, 255, 224, 235, 240,
  237, 229, 216, 199, 181, 161, 143, 139, 166, 186, 202, 215, 221, 222, 216, 204, 185, 115, 142, 166, 184, 197, 203, 202,
  195, 181, 158, 167, 180, 182, 178, 166, 148, 126, 101, 74, 21, 42, 66, 91, 114, 134, 150, 159, 160, 147, 141, 137,
  124, 106, 85, 63, 42, 24, 9, 0]

/-- Table `const uint8_t angles[NUM_PIXELS]` of FIBONACCI128. -/
def angles : List Nat := [
  0, 247, 239, 230, 221, 212, 203, 194, 186, 177, 154, 163, 171, 180, 189, 198, 207, 216, 224, 233, 210, 201, 192, 184,
  175, 166, 157, 148, 139, 131, 116, 125, 134, 143, 152, 160, 169, 178, 187, 196, 173, 164, 155, 146, 137, 129, 120, 111,
  102, 93, 79, 88, 97, 105, 114, 123, 132, 141, 150, 135, 126, 118, 109, 100, 91, 82, 73, 65, 56, 33, 42, 50,
  59, 68, 77, 86, 95, 103, 112, 98, 89, 80, 71, 63, 54, 45, 36, 27, 18, 252, 4, 13, 22, 31, 39, 48,
  57, 66, 75, 52, 43, 34, 25, 16, 8, 255, 246, 237, 214, 223, 232, 241, 250, 2, 11, 20, 29, 37, 14, 5,
  253, 244, 235, 226, 218, 209, 200, 191]

end FIBONACCI128

namespace FIBONACCI64

/-- Pixel count of this board: the length every table below is declared with. -/
def NUM_PIXELS : Nat := 64

/-- Table `const uint8_t physicalToFibonacci[NUM_PIXELS]` of FIBONACCI64_FULL. -/
def physicalToFibonacci : List Nat := [
  0, 13, 26, 39, 52, 57, 44, 31, 18, 5, 10, 23, 36, 49, 62, 54, 41, 28, 15, 2, 7, 20, 33, 46,
  59, 51, 38, 25, 12, 4, 17, 30, 43, 56, 61, 48, 35, 22, 9, 1, 14, 27, 40, 53, 58, 45, 32, 19,
  6, 11, 24, 37, 50, 63, 55, 42, 29, 16, 3, 8, 21, 34, 47, 60]

/-- Table `const uint8_t fibonacciToPhysical[NUM_PIXELS]` of FIBONACCI64_FULL. -/
def fibonacciToPhysical : List Nat := [
  0, 39, 19, 58, 29, 9, 48, 20, 59, 38, 10, 49, 28, 1, 40, 18, 57, 30, 8, 47, 21, 60, 37, 11,
  50, 27, 2, 41, 17, 56, 31, 7, 46, 22, 61, 36, 12, 51, 26, 3, 42, 16, 55, 32, 6, 45, 23, 62,
  35, 13, 52, 25, 4, 43, 15, 54, 33, 5, 44, 24, 63, 34, 14, 53]

/-- Table `const uint8_t coordsX[NUM_PIXELS]` of FIBONACCI64_FULL. -/
def coordsX : List Nat := [
  140, 189, 208, 214, 208, 146, 168, 180, 180, 162, 152, 146, 129, 103, 72, 40, 70, 97, 120, 131, 107, 79, 50, 23,
  0, 7, 23, 46, 76, 93, 57, 37, 28, 29, 87, 68, 59, 62, 80, 113, 91, 94, 109, 133, 202, 172, 145, 125,
  117, 145, 170, 198, 227, 253, 255, 235, 210, 181, 148, 175, 207, 228, 240, 244]

/-- Table `const uint8_t coordsY[NUM_PIXELS]` of FIBONACCI64_FULL. -/
def coordsY : List Nat := [
  128, 114, 91, 63, 34, 0, 21, 48, 76, 106, 78, 47, 25, 11, 5, 38, 35, 42, 61, 101, 87, 69, 68, 78,
  98, 143, 118, 102, 98, 122, 131, 152, 179, 209, 255, 230, 202, 174, 148, 142, 181, 210, 235, 252, 235, 234, 224, 203,
  170, 183, 201, 205, 198, 181, 134, 157, 171, 173, 153, 145, 138, 120, 93, 63]

/-- Table `const uint8_t angles[NUM_PIXELS]` of FIBONACCI64_FULL. -/
def angles : List Nat := [
  0, 249, 241, 232, 223, 200, 208, 217, 226, 235, 212, 203, 194, 185, 176, 162, 171, 180, 188, 197, 174, 165, 156, 147,
  139, 124, 133, 142, 151, 136, 128, 119, 110, 101, 78, 86, 95, 104, 113, 99, 90, 81, 72, 63, 40, 49, 58, 67,
  75, 52, 43, 34, 25, 17, 2, 11, 20, 29, 38, 14, 6, 255, 246, 237]

end FIBONACCI64

namespace FIBONACCI32

/-- Pixel count of this board: the length every table below is declared with. -/
def NUM_PIXELS : Nat := 34

/-- Table `const uint8_t physicalToFibonacci[NUM_PIXELS]` of FIBONACCI32. -/
def physicalToFibonacci : List Nat := [
  0, 13, 26, 31, 18, 5, 10, 23, 28, 15, 2, 7, 20, 33, 25, 12, 4, 17, 30, 22, 9, 1, 14, 27,
  32, 19, 6, 11, 24, 29, 16, 3, 8, 21]

/-- Table `const uint8_t fibonacciToPhysical[NUM_PIXELS]` of FIBONACCI32. -/
def fibonacciToPhysical : List Nat := [
  0, 21, 10, 31, 16, 5, 26, 11, 32, 20, 6, 27, 15, 1, 22, 9, 30, 17, 4, 25, 12, 33, 19, 7,
  28, 14, 2, 23, 8, 29, 18, 3, 24, 13]

/-- Table `const uint8_t coordsX[NUM_PIXELS]` of FIBONACCI32. -/
def coordsX : List Nat := [
  152, 224, 252, 210, 211, 184, 169, 161, 89, 121, 138, 102, 61, 19, 13, 57, 82, 29, 0, 36, 63, 111, 79, 83,
  158, 129, 118, 160, 196, 255, 212, 163, 203, 250]

/-- Table `const uint8_t coordsY[NUM_PIXELS]` of FIBONACCI32. -/
def coordsY : List Nat := [
  120, 101, 69, 7, 48, 90, 50, 7, 0, 27, 83, 62, 37, 35, 84, 78, 112, 125, 154, 185, 149, 140, 195, 236,
  255, 226, 179, 198, 223, 181, 183, 156, 144, 135]

/-- Table `const uint8_t angles[NUM_PIXELS]` of FIBONACCI32. -/
def angles : List Nat := [
  255, 246, 237, 214, 223, 232, 208, 199, 176, 185, 193, 170, 161, 152, 138, 147, 132, 123, 114, 100, 108, 94, 85, 76,
  53, 62, 70, 47, 38, 15, 23, 32, 9, 0]

end FIBONACCI32

namespace KRAKEN64

/-- Pixel count of this board: the length every table below is declared with. -/
def NUM_PIXELS : Nat := 64

/-- Table `const uint8_t coordsX[NUM_PIXELS]` of KRAKEN64. -/
def coordsX : List Nat := [
  151, 188, 199, 199, 171, 147, 131, 119, 124, 179, 200, 217, 237, 249, 242, 234, 255, 148, 175, 177, 150, 143, 171, 153,
  155, 106, 110, 102, 75, 86, 106, 108, 88, 90, 84, 78, 107, 98, 121, 128, 80, 69, 134, 159, 192, 202, 195, 218,
  61, 32, 18, 26, 39, 20, 3, 0, 48, 52, 61, 54, 33, 20, 7, 8]

/-- Table `const uint8_t coordsY[NUM_PIXELS]` of KRAKEN64. -/
def coordsY : List Nat := [
  190, 204, 225, 252, 255, 236, 216, 191, 166, 147, 154, 170, 173, 156, 131, 107, 106, 148, 121, 86, 81, 63, 56, 36,
  17, 145, 120, 96, 55, 23, 18, 0, 2, 112, 77, 31, 35, 49, 51, 30, 124, 103, 101, 98, 80, 58, 40, 69,
  134, 124, 107, 81, 56, 43, 50, 70, 156, 180, 202, 219, 213, 195, 197, 215]

/-- Table `const uint8_t angles[NUM_PIXELS]` of KRAKEN64. -/
def angles : List Nat := [
  0, 249, 241, 232, 223, 200, 208, 217, 226, 235, 212, 203, 194, 185, 176, 162, 171, 180, 188, 197, 174, 165, 156, 147,
  139, 124, 133, 142, 151, 136, 128, 119, 110, 101, 78, 86, 95, 104, 113, 99, 90, 81, 72, 63, 40, 49, 58, 67,
  75, 52, 43, 34, 25, 17, 2, 11, 20, 29, 38, 14, 6, 255, 246, 237]

/-- Table `const uint8_t body[NUM_PIXELS]` of KRAKEN64. -/
def body : List Nat := [
  0, 16, 32, 48, 64, 80, 96, 112, 128, 143, 159, 175, 191, 207, 223, 239, 255, 143, 159, 175, 191, 207, 223, 239,
  255, 143, 159, 175, 191, 207, 223, 239, 255, 143, 159, 175, 191, 207, 223, 239, 143, 159, 175, 191, 207, 223, 239, 255,
  143, 159, 175, 191, 207, 223, 239, 255, 143, 159, 175, 191, 207, 223, 239, 255]

end KRAKEN64

/-- A spiral (Fibonacci) board: the tables the header requires when `IS_FIBONACCI` holds. -/
structure SpiralBoard where
  NUM_PIXELS : Nat
  physicalToFibonacci : List Nat
  fibonacciToPhysical : List Nat
  coordsX : List Nat
  coordsY : List Nat
  angles : List Nat

/-- Board selected by `PRODUCT_FIBONACCI512`. -/
def fibonacci512 : SpiralBoard :=
  ⟨FIBONACCI512.NUM_PIXELS, FIBONACCI512.physicalToFibonacci, FIBONACCI512.fibonacciToPhysical,
   FIBONACCI512.coordsX, FIBONACCI512.coordsY, FIBONACCI512.angles⟩

/-- Board selected by `PRODUCT_FIBONACCI256`. -/
def fibonacci256 : SpiralBoard :=
  ⟨FIBONACCI256.NUM_PIXELS, FIBONACCI256.physicalToFibonacci, FIBONACCI256.fibonacciToPhysical,
   FIBONACCI256.coordsX, FIBONACCI256.coordsY, FIBONACCI256.angles⟩

/-- Board selected by `PRODUCT_FIBONACCI128`. -/
def fibonacci128 : SpiralBoard :=
  ⟨FIBONACCI128.NUM_PIXELS, FIBONACCI128.physicalToFibonacci, FIBONACCI128.fibonacciToPhysical,
   FIBONACCI128.coordsX, FIBONACCI128.coordsY, FIBONACCI128.angles⟩

/-- Board selected by `PRODUCT_FIBONACCI64_FULL` or `PRODUCT_FIBONACCI64_MINI`. -/
def fibonacci64 : SpiralBoard :=
  ⟨FIBONACCI64.NUM_PIXELS, FIBONACCI64.physicalToFibonacci, FIBONACCI64.fibonacciToPhysical,
   FIBONACCI64.coordsX, FIBONACCI64.coordsY, FIBONACCI64.angles⟩

/-- Board selected by `PRODUCT_FIBONACCI32` (34 pixels). -/
def fibonacci32 : SpiralBoard :=
  ⟨FIBONACCI32.NUM_PIXELS, FIBONACCI32.physicalToFibonacci, FIBONACCI32.fibonacciToPhysical,
   FIBONACCI32.coordsX, FIBONACCI32.coordsY, FIBONACCI32.angles⟩

/-- The five spiral boards of the header. -/
def spiralBoards : List SpiralBoard :=
  [fibonacci512, fibonacci256, fibonacci128, fibonacci64, fibonacci32]

/-- A binary lookup tree of depth `d` holding the first `2 ^ d` entries of a table; it gives the
table checks below logarithmic lookups. -/
inductive LookupTree where
  | leaf (v : Nat)
  | node (l r : LookupTree)

/-- The lookup tree of depth `d` for the table `l` (missing entries read as 0). -/
def LookupTree.ofList : Nat → List Nat → LookupTree
  | 0, l => .leaf (l.headD 0)
  | d + 1, l => .node (LookupTree.ofList d (l.take (2 ^ d))) (LookupTree.ofList d (l.drop (2 ^ d)))

/-- Entry `i` of a lookup tree of depth `d`. -/
def LookupTree.get : Nat → LookupTree → Nat → Nat
  | 0, .leaf v, _ => v
  | d + 1, .node l r, i =>
    if i < 2 ^ d then LookupTree.get d l i else LookupTree.get d r (i - 2 ^ d)
  | _, _, _ => 0

/-- Executable check, through lookup trees of depth `d`, that `p2f` and `f2p` have length `n`,
stay below `n`, and invert each other. -/
def inverseTables (d n : Nat) (p2f f2p : List Nat) : Bool :=
  let tp := LookupTree.ofList d p2f
  let tf := LookupTree.ofList d f2p
  p2f.length == n && f2p.length == n && decide (n ≤ 2 ^ d) &&
  (List.range n).all (fun p =>
    decide (tp.get d p < n) && decide (tf.get d p < n) &&
    tf.get d (tp.get d p) == p && tp.get d (tf.get d p) == p)

/-! ## 8-bit arithmetic used by the header -/

/-- The C type `uint8_t`. -/
abbrev U8 := Fin 256

/-- Conversion of a non-negative integer to `uint8_t`: reduction modulo 256. -/
def toU8 (n : Nat) : U8 := ⟨n % 256, Nat.mod_lt _ (by decide)⟩

/-- Conversion of a signed integer to `uint8_t`: reduction modulo 256. -/
def intToU8 (z : Int) : U8 := ⟨(z % 256).toNat, by omega⟩

/-- Modelled from the spec: FastLED's `qadd8` is not in the header; it is the
saturating 8-bit addition ("add-with-clamp"), `i + j` clamped at 255. -/
def qadd8 (i j : U8) : U8 := ⟨min (i.val + j.val) 255, by omega⟩

/-- Modelled from the spec: FastLED's `qsub8` is not in the header; it is the
saturating 8-bit subtraction ("subtract-with-clamp"), `i - j` clamped at 0. -/
def qsub8 (i j : U8) : U8 := ⟨i.val - j.val, by omega⟩

/-- Modelled from the spec: FastLED's `sub8` is not in the header; it is the
wraparound subtraction, `i - j` modulo 256. -/
def sub8 (i j : U8) : U8 := ⟨(i.val + 256 - j.val) % 256, Nat.mod_lt _ (by decide)⟩

/-- Modelled from the spec: the Arduino `map` ("linear_map") is not in the header; it is
`(x - in_min) * (out_max - out_min) / (in_max - in_min) + out_min` in C integer
arithmetic (division truncating toward zero), and has no value when the divisor
`in_max - in_min` is zero. -/
def map (x in_min in_max out_min out_max : Int) : Option Int :=
  if in_max - in_min = 0 then none
  else some (Int.tdiv ((x - in_min) * (out_max - out_min)) (in_max - in_min) + out_min)

/-! ## Colors -/

/-- Modelled from the spec: FastLED's `CRGB` is not in the header; it is a color of three
independent 8-bit channels. -/
structure CRGB where
  r : U8
  g : U8
  b : U8
deriving DecidableEq, Repr

/-- Modelled from the spec: `CRGB::operator+=` is not in the header; it is the
per-channel saturating addition. -/
def CRGB.add (c rhs : CRGB) : CRGB :=
  ⟨qadd8 c.r rhs.r, qadd8 c.g rhs.g, qadd8 c.b rhs.b⟩

/-- Modelled from the spec: FastLED's `nscale8x3` is not in the header; each channel
becomes `(channel * (scale + 1)) >> 8`, so scale 255 keeps the color and scale 0 gives black. -/
def nscale8x3 (c : CRGB) (scale : U8) : CRGB :=
  let scale_fixed := scale.val + 1
  ⟨toU8 ((c.r.val * scale_fixed) / 256), toU8 ((c.g.val * scale_fixed) / 256),
   toU8 ((c.b.val * scale_fixed) / 256)⟩

/-- Modelled from the spec: `CRGB::fadeToBlackBy` is not in the header; it scales the
color by `255 - fadefactor`. -/
def CRGB.fadeToBlackBy (c : CRGB) (fadefactor : U8) : CRGB :=
  nscale8x3 c ⟨255 - fadefactor.val, by omega⟩

/-! ## Layout seen by the selectors (Map.h lines 103-145) -/

/-- The tables the selectors read. `radiusProxy` refers to `physicalToFibonacci` on spiral
boards and to `body` on KRAKEN64. The two size fields are the header's `static_assert`s;
the last field records that the `uint16_t` loop counters can reach `NUM_PIXELS`. -/
structure Layout where
  NUM_PIXELS : Nat
  angles : List Nat
  radiusProxy : List Nat
  angles_size : angles.length = NUM_PIXELS
  radiusProxy_size : radiusProxy.length = NUM_PIXELS
  NUM_PIXELS_u16 : NUM_PIXELS ≤ 65535

/-- The read `uint8_t ro = radiusProxy[i]`. -/
def Layout.ro (L : Layout) (i : Nat) : U8 := toU8 (L.radiusProxy.getD i 0)

/-- The read `uint8_t ao = angles[i]`. -/
def Layout.ao (L : Layout) (i : Nat) : U8 := toU8 (L.angles.getD i 0)

/-! ## Selectors (Map.h lines 178-259) -/

/-- Set to `color` the pixels inside the angle and radius range (Map.h lines 180-200). -/
def setPixelAR (L : Layout) (angle dAngle radius dRadius : U8) (color : CRGB)
    (leds : List CRGB) : List CRGB :=
  let endRadius := qadd8 radius dRadius
  let startRadius := qsub8 radius dRadius
  (List.range L.NUM_PIXELS).foldl (fun leds i =>
    let ro := L.ro i
    if ro ≤ endRadius ∧ ro ≥ startRadius then
      let ao := L.ao i
      let adiff := min (sub8 ao angle) (sub8 angle ao)
      if adiff ≤ dAngle then leds.set i color else leds
    else leds) leds

/-- Add `color` to the pixels inside the angle and radius range (Map.h lines 205-221). -/
def andPixelAR (L : Layout) (angle dAngle startRadius endRadius : U8) (color : CRGB)
    (leds : List CRGB) : List CRGB :=
  (List.range L.NUM_PIXELS).foldl (fun leds i =>
    let ro := L.ro i
    if ro ≤ endRadius ∧ ro ≥ startRadius then
      let ao := L.ao i
      let adiff := min (sub8 ao angle) (sub8 angle ao)
      if adiff ≤ dAngle then List.modify (fun c => c.add color) i leds else leds
    else leds) leds

/-- Add `color`, faded by angular distance, to the pixels inside the range
(Map.h lines 227-258). The result is `none` when `map` has no value. The count
`_NUM_PIXELS` is the header's `int` parameter, `NUM_PIXELS` by default; a negative count
runs no iteration, and the `uint16_t` counter reaches every count up to 65535. -/
def antialiasPixelAR (L : Layout) (angle dAngle startRadius endRadius : U8) (color : CRGB)
    (leds : List CRGB) (_NUM_PIXELS : Int) : Option (List CRGB) :=
  (List.range _NUM_PIXELS.toNat).foldlM (fun leds i =>
    let ro := L.ro i
    if ro ≤ endRadius ∧ ro ≥ startRadius then
      let ao := L.ao i
      let adiff := min (sub8 ao angle) (sub8 angle ao)
      if adiff ≤ dAngle then
        (map adiff.val 0 dAngle.val 0 255).map (fun m =>
          let fade := intToU8 m
          let faded := color.fadeToBlackBy fade
          List.modify (fun c => c.add faded) i leds)
      else some leds
    else some leds) leds

/-! ## Reference predicates, in the words of the specification -/

/-- Circular distance of two angles as the specification writes it:
`min(wrap(a - target), wrap(target - a))`, with `wrap` the remainder modulo 256. -/
def circularDistance (a target : Int) : Int := min ((a - target) % 256) ((target - a) % 256)

/-- Selection predicate of the specification for pixel `i`: the radius proxy read for the
pixel lies in the inclusive band, and the circular distance of its angle to the target is
within the tolerance. -/
def Selected (L : Layout) (angle dAngle startRadius endRadius : U8) (i : Nat) : Prop :=
  startRadius.val ≤ (L.ro i).val ∧ (L.ro i).val ≤ endRadius.val ∧
    circularDistance (L.angles.getD i 0) angle.val ≤ dAngle.val

instance (L : Layout) (angle dAngle startRadius endRadius : U8) (i : Nat) :
    Decidable (Selected L angle dAngle startRadius endRadius i) := by
  unfold Selected; infer_instance

/-- Selection predicate of the specification on the table entry `radiusProxy[i]` itself: the
entry lies in the inclusive band, and the circular distance of `angles[i]` to the target is
within the tolerance. -/
def Matched (L : Layout) (angle dAngle startRadius endRadius : U8) (i : Nat) : Prop :=
  startRadius.val ≤ L.radiusProxy.getD i 0 ∧ L.radiusProxy.getD i 0 ≤ endRadius.val ∧
    circularDistance (L.angles.getD i 0) angle.val ≤ dAngle.val

instance (L : Layout) (angle dAngle startRadius endRadius : U8) (i : Nat) :
    Decidable (Matched L angle dAngle startRadius endRadius i) := by
  unfold Matched; infer_instance

/-- Saturating doubled addition of the specification: each channel is `min(255, old + 2*c)`. -/
def CRGB.addTwice (old c : CRGB) : CRGB :=
  ⟨⟨min 255 (old.r.val + 2 * c.r.val), by omega⟩, ⟨min 255 (old.g.val + 2 * c.g.val), by omega⟩,
   ⟨min 255 (old.b.val + 2 * c.b.val), by omega⟩⟩

/-- Four-pixel layout of the specification's concrete selector test. -/
def layout4 : Layout := ⟨4, [0, 64, 128, 192], [0, 1, 2, 3], rfl, rfl, by decide⟩

/-- A four-pixel buffer and a color for evaluating the selectors on `layout4`. -/
def leds4 : List CRGB := [⟨0, 0, 0⟩, ⟨1, 2, 3⟩, ⟨0, 0, 0⟩, ⟨250, 0, 9⟩]

/-- A test color. -/
def color4 : CRGB := ⟨200, 0, 0⟩

/-- The color `antialiasPixelAR` adds to a matched pixel `i`: `color` faded by
`map(adiff, 0, dAngle, 0, 255)` (taken as 0 where `map` has no value). -/
def fadedColor (L : Layout) (angle dAngle : U8) (color : CRGB) (i : Nat) : CRGB :=
  color.fadeToBlackBy (intToU8
    ((map (min (sub8 (L.ao i) angle) (sub8 angle (L.ao i))).val 0 dAngle.val 0 255).getD 0))

/-! ## Spiral line drawer (Map.h lines 147-176) -/

/-- Conversion of an integer to the C type `int` (32-bit two's complement). -/
def toInt32 (z : Int) : Int := (z + 2147483648) % 4294967296 - 2147483648

/-- Start search of `drawSpiralLine` (Map.h lines 150-164): the values of `startIndex` and
`smallestAngleDifference` when the `for` loop ends. -/
def drawSpiralLine.search (B : SpiralBoard) (angle : U8) (step : Int) : Nat × Int :=
  (List.range B.NUM_PIXELS).foldl (fun st i =>
    let j : Int := B.physicalToFibonacci.getD i 0
    if j < step then st
    else if ¬ (toInt32 (j + step) ≥ B.NUM_PIXELS) then st
    else
      let a : U8 := toU8 (B.angles.getD i 0)
      if a = angle then (i, st.2)
      else if (angle.val : Int) - a.val > 0 ∧ (angle.val : Int) - a.val < st.2 then
        (i, (angle.val : Int) - a.val)
      else st) (0, 255)

/-- Inward walk of `drawSpiralLine` (Map.h lines 169-174), the `while` loop run with at most
`fuel` tests of its condition; `none` when the fuel does not suffice. -/
def drawSpiralLine.walk (B : SpiralBoard) (step : Int) (color : CRGB) :
    Nat → Int → List CRGB → Option (List CRGB)
  | 0, _, _ => none
  | fuel + 1, f, leds =>
    if toInt32 (f - step) ≥ 0 ∧ toInt32 (f - step) < B.NUM_PIXELS then
      drawSpiralLine.walk B step color fuel (toInt32 (f - step))
        (List.modify (fun c => c.add color) (B.fibonacciToPhysical.getD f.toNat 0) leds)
    else some leds

/-- Draw a dotted line from the outer edge of the spiral toward the centre
(Map.h lines 148-175). The parameter `step` is the header's `int`. -/
def drawSpiralLine (B : SpiralBoard) (angle : U8) (step : Int) (color : CRGB)
    (leds : List CRGB) (fuel : Nat) : Option (List CRGB) :=
  let startIndex := (drawSpiralLine.search B angle step).1
  let leds := List.modify (fun c => c.add color) startIndex leds
  let f : Int := B.physicalToFibonacci.getD startIndex 0
  drawSpiralLine.walk B step color fuel f leds

/-- A pixel is a start candidate of `drawSpiralLine` when its rank is at least `step` and no
further outward rank exists at this stride, in the words of the specification. -/
def Candidate (B : SpiralBoard) (step : Int) (i : Nat) : Prop :=
  i < B.NUM_PIXELS ∧ (B.physicalToFibonacci.getD i 0 : Int) ≥ step ∧
    (B.physicalToFibonacci.getD i 0 : Int) + step ≥ B.NUM_PIXELS

instance (B : SpiralBoard) (step : Int) (i : Nat) : Decidable (Candidate B step i) := by
  unfold Candidate; infer_instance

/-- A buffer of `n` black pixels. -/
def blackLeds (n : Nat) : List CRGB := List.replicate n ⟨0, 0, 0⟩

/-! ## Radius proxy of each board (Map.h lines 113-141) -/

/-- Layout of FIBONACCI512: `radiusProxy` refers to `physicalToFibonacci`. -/
def FIBONACCI512.layout : Layout :=
  ⟨FIBONACCI512.NUM_PIXELS, FIBONACCI512.angles, FIBONACCI512.physicalToFibonacci,
   by decide!, by decide!, by decide⟩

/-- Layout of FIBONACCI32: `radiusProxy` refers to `physicalToFibonacci`. -/
def FIBONACCI32.layout : Layout :=
  ⟨FIBONACCI32.NUM_PIXELS, FIBONACCI32.angles, FIBONACCI32.physicalToFibonacci,
   by decide, by decide, by decide⟩

/-- Constant `RADII_SCALE_DIVISOR` of a spiral board (Map.h line 131). -/
def RADII_SCALE_DIVISOR (NUM_PIXELS : Nat) : U8 :=
  toU8 (if NUM_PIXELS ≤ 256 then 1 else NUM_PIXELS / 256)

/-- Constant `RADII_SCALE_MULTIPLIER` of a spiral board (Map.h lines 132-137). -/
def RADII_SCALE_MULTIPLIER (NUM_PIXELS : Nat) : U8 :=
  toU8 (if NUM_PIXELS ≥ 256 then 1
    else if NUM_PIXELS = 34 then 8
    else if NUM_PIXELS &&& (NUM_PIXELS - 1) = 0 then 256 / NUM_PIXELS
    else 0)

/-- The value `uint8_t r = ((unsigned)(radiusProxy[i] * RADII_SCALE_MULTIPLIER)) /
RADII_SCALE_DIVISOR` of `radiusPalette` and `radiusGradientPalette` (Map.h lines 283, 343). -/
def radiusPalette_r (L : Layout) (multiplier divisor : U8) (i : Nat) : U8 :=
  toU8 ((L.radiusProxy.getD i 0 * multiplier.val) / divisor.val)

/-- The coordinate tables `(coordsX, coordsY)` of the six boards with a coordinate map. -/
def coordinateMaps : List (List Nat × List Nat) :=
  [(FIBONACCI512.coordsX, FIBONACCI512.coordsY), (FIBONACCI256.coordsX, FIBONACCI256.coordsY),
   (FIBONACCI128.coordsX, FIBONACCI128.coordsY), (FIBONACCI64.coordsX, FIBONACCI64.coordsY),
   (FIBONACCI32.coordsX, FIBONACCI32.coordsY), (KRAKEN64.coordsX, KRAKEN64.coordsY)]

/-! ## Write trace of the spiral line drawer -/

/-- The ranks `f` at which the body of the `while` loop of `drawSpiralLine` runs, in order,
within the first `fuel` tests of its condition (Map.h lines 171-174). -/
def drawSpiralLine.ranks (B : SpiralBoard) (step : Int) : Nat → Int → List Int
  | 0, _ => []
  | fuel + 1, f =>
    if toInt32 (f - step) ≥ 0 ∧ toInt32 (f - step) < B.NUM_PIXELS then
      f :: drawSpiralLine.ranks B step fuel (toInt32 (f - step))
    else []

/-- The effect of the additive writes `leds[i] += color` for the indices `ws`, in order. -/
def applyWrites (color : CRGB) (ws : List Nat) (leds : List CRGB) : List CRGB :=
  ws.foldl (fun leds i => List.modify (fun c => c.add color) i leds) leds

/-! ## Palette effects (Map.h lines 261-384) -/

/-- The tables of a board with a coordinate map (`HAS_COORDINATE_MAP`). -/
structure CoordinateMap where
  NUM_PIXELS : Nat
  coordsX : List Nat
  coordsY : List Nat
  angles : List Nat

/-- Effect `anglePalette` (Map.h lines 266-274). The argument `palette` stands for
`ColorFromPalette(palettes[currentPaletteIndex], index)` and `beat8 i` for the value of
`beat8(speed)` in loop pass `i`. -/
def anglePalette (M : CoordinateMap) (palette : U8 → CRGB) (beat8 : Nat → U8)
    (leds : List CRGB) : List CRGB :=
  let hues : Int := 1
  (List.range M.NUM_PIXELS).foldl (fun leds i =>
    let x : Int := (toU8 (M.angles.getD i 0)).val
    leds.set i (palette (intToU8 ((beat8 i).val - (x * hues))))) leds

/-- Effect `radiusPalette` (Map.h lines 279-286), with the two scale constants of the board. -/
def radiusPalette (L : Layout) (multiplier divisor : U8) (palette : U8 → CRGB)
    (beat8 : Nat → U8) (leds : List CRGB) : List CRGB :=
  let hues : Int := 1
  (List.range L.NUM_PIXELS).foldl (fun leds i =>
    let r : U8 := radiusPalette_r L multiplier divisor i
    leds.set i (palette (intToU8 ((beat8 i).val - (r.val * hues))))) leds

/-- Effect `xPalette` (Map.h lines 290-298). -/
def xPalette (M : CoordinateMap) (palette : U8 → CRGB) (beat8 : Nat → U8)
    (leds : List CRGB) : List CRGB :=
  let hues : Int := 1
  (List.range M.NUM_PIXELS).foldl (fun leds i =>
    let x : Int := (toU8 (M.coordsX.getD i 0)).val
    leds.set i (palette (intToU8 ((beat8 i).val - (x * hues))))) leds

/-- Effect `yPalette` (Map.h lines 302-310). -/
def yPalette (M : CoordinateMap) (palette : U8 → CRGB) (beat8 : Nat → U8)
    (leds : List CRGB) : List CRGB :=
  let hues : Int := 1
  (List.range M.NUM_PIXELS).foldl (fun leds i =>
    let y : Int := (toU8 (M.coordsY.getD i 0)).val
    leds.set i (palette (intToU8 ((beat8 i).val - (y * hues))))) leds

/-- Effect `xyPalette` (Map.h lines 314-323). -/
def xyPalette (M : CoordinateMap) (palette : U8 → CRGB) (beat8 : Nat → U8)
    (leds : List CRGB) : List CRGB :=
  let hues : Int := 1
  (List.range M.NUM_PIXELS).foldl (fun leds i =>
    let x : Int := (toU8 (M.coordsX.getD i 0)).val
    let y : Int := (toU8 (M.coordsY.getD i 0)).val
    leds.set i (palette (intToU8 ((beat8 i).val - ((x + y) * hues))))) leds

/-- Effect `angleGradientPalette` (Map.h lines 327-335); `gCurrentPalette` stands for
`ColorFromPalette(gCurrentPalette, index)`. -/
def angleGradientPalette (M : CoordinateMap) (gCurrentPalette : U8 → CRGB) (beat8 : Nat → U8)
    (leds : List CRGB) : List CRGB :=
  let hues : Int := 1
  (List.range M.NUM_PIXELS).foldl (fun leds i =>
    let x : Int := (toU8 (M.angles.getD i 0)).val
    leds.set i (gCurrentPalette (intToU8 ((beat8 i).val - (x * hues))))) leds

/-- Effect `radiusGradientPalette` (Map.h lines 339-346). -/
def radiusGradientPalette (L : Layout) (multiplier divisor : U8) (gCurrentPalette : U8 → CRGB)
    (beat8 : Nat → U8) (leds : List CRGB) : List CRGB :=
  let hues : Int := 1
  (List.range L.NUM_PIXELS).foldl (fun leds i =>
    let r : U8 := radiusPalette_r L multiplier divisor i
    leds.set i (gCurrentPalette (intToU8 ((beat8 i).val - (r.val * hues))))) leds

/-- Effect `xGradientPalette` (Map.h lines 350-358). -/
def xGradientPalette (M : CoordinateMap) (gCurrentPalette : U8 → CRGB) (beat8 : Nat → U8)
    (leds : List CRGB) : List CRGB :=
  let hues : Int := 1
  (List.range M.NUM_PIXELS).foldl (fun leds i =>
    let x : Int := (toU8 (M.coordsX.getD i 0)).val
    leds.set i (gCurrentPalette (intToU8 ((beat8 i).val - (x * hues))))) leds

/-- Effect `yGradientPalette` (Map.h lines 362-370). -/
def yGradientPalette (M : CoordinateMap) (gCurrentPalette : U8 → CRGB) (beat8 : Nat → U8)
    (leds : List CRGB) : List CRGB :=
  let hues : Int := 1
  (List.range M.NUM_PIXELS).foldl (fun leds i =>
    let y : Int := (toU8 (M.coordsY.getD i 0)).val
    leds.set i (gCurrentPalette (intToU8 ((beat8 i).val - (y * hues))))) leds

/-- Effect `xyGradientPalette` (Map.h lines 374-383). -/
def xyGradientPalette (M : CoordinateMap) (gCurrentPalette : U8 → CRGB) (beat8 : Nat → U8)
    (leds : List CRGB) : List CRGB :=
  let hues : Int := 1
  (List.range M.NUM_PIXELS).foldl (fun leds i =>
    let x : Int := (toU8 (M.coordsX.getD i 0)).val
    let y : Int := (toU8 (M.coordsY.getD i 0)).val
    leds.set i (gCurrentPalette (intToU8 ((beat8 i).val - ((x + y) * hues))))) leds

/-! ## Analog clock radii (Map.h lines 389-392) -/

/-- Constant `const uint8_t hourRadius = NUM_PIXELS / 8 * 3` of `drawAnalogClock`. -/
def hourRadius (NUM_PIXELS : Nat) : U8 := toU8 (NUM_PIXELS / 8 * 3)

/-- Constant `const uint8_t minuteRadius = NUM_PIXELS / 4 * 3` of `drawAnalogClock`. -/
def minuteRadius (NUM_PIXELS : Nat) : U8 := toU8 (NUM_PIXELS / 4 * 3)

/-- Constant `const uint8_t secondRadius = NUM_PIXELS - 1` of `drawAnalogClock`. -/
def secondRadius (NUM_PIXELS : Nat) : U8 := toU8 (NUM_PIXELS - 1)

/-- The write list described for `drawSpiralLine` with start pixel `s` and stride `n`: the start
pixel, then the pixels of the ranks `f0, f0 - n, ..., f0 - (m - 1) * n`, where `f0` is the rank
of `s` and `m = f0 / n`. -/
def inwardWrites (B : SpiralBoard) (s n : Nat) : List Nat :=
  s :: (List.range (B.physicalToFibonacci.getD s 0 / n)).map
    (fun k => B.fibonacciToPhysical.getD (B.physicalToFibonacci.getD s 0 - k * n) 0)

/-! ## Helper lemmas -/

theorem inverseTables_spiralBoards :
    spiralBoards.all
      (fun B => inverseTables 9 B.NUM_PIXELS B.physicalToFibonacci B.fibonacciToPhysical) = true := by
  decide!

/-! ## Arithmetic lemmas -/

theorem sub8_val (i j : U8) : ((sub8 i j).val : Int) = ((i.val : Int) - j.val) % 256 := by
  have hi := i.isLt
  have hj := j.isLt
  simp only [sub8]
  omega

theorem adiff_val (a b : U8) :
    ((min (sub8 a b) (sub8 b a)).val : Int) = circularDistance a.val b.val := by
  rw [Fin.coe_min, circularDistance, ← sub8_val, ← sub8_val]
  omega

theorem adiff_toU8 (x : Nat) (b : U8) :
    ((min (sub8 (toU8 x) b) (sub8 b (toU8 x))).val : Int) = circularDistance x b.val := by
  rw [adiff_val]
  simp only [circularDistance, toU8]
  omega

/-- The radius proxy read for a pixel is the table entry itself when the entry fits in 8 bits. -/
theorem Layout.ro_val_of_lt (L : Layout) (i : Nat) (h : L.radiusProxy.getD i 0 < 256) :
    (L.ro i).val = L.radiusProxy.getD i 0 := by
  simp only [Layout.ro, toU8]
  omega

/-- The test the three selectors make on pixel `i` is the specification's predicate. -/
theorem code_test_iff (L : Layout) (angle dAngle startRadius endRadius : U8) (i : Nat) :
    ((L.ro i ≤ endRadius ∧ L.ro i ≥ startRadius) ∧
        min (sub8 (L.ao i) angle) (sub8 angle (L.ao i)) ≤ dAngle) ↔
      Selected L angle dAngle startRadius endRadius i := by
  have h := adiff_toU8 (L.angles.getD i 0) angle
  simp only [Selected, Layout.ao, ge_iff_le, Fin.le_def] at *
  omega

/-- For a pixel whose table entry fits in 8 bits, the predicate on the radius proxy read is the
predicate on the entry. -/
theorem selected_iff_matched (L : Layout) (angle dAngle startRadius endRadius : U8) (i : Nat)
    (h : L.radiusProxy.getD i 0 < 256) :
    Selected L angle dAngle startRadius endRadius i ↔
      Matched L angle dAngle startRadius endRadius i := by
  simp only [Selected, Matched, L.ro_val_of_lt i h]

/-- Every pixel of a black buffer is black. -/
theorem blackLeds_getElem? (n i : Nat) (h : i < n) : (blackLeds n)[i]? = some ⟨0, 0, 0⟩ := by
  unfold blackLeds
  rw [List.getElem?_replicate, if_pos h]

/-! ## Loop lemmas -/

/-- Pointwise description of a `for` loop over `0 .. n-1` whose body rewrites at most pixel `i`. -/
theorem foldl_range_getElem? (step : List CRGB → Nat → List CRGB) (sel : Nat → Prop)
    [DecidablePred sel] (upd : Nat → CRGB → CRGB)
    (hstep : ∀ leds i j,
      (step leds i)[j]? = if j = i ∧ sel i then (leds[j]?).map (upd i) else leds[j]?)
    (n : Nat) (leds : List CRGB) (j : Nat) :
    ((List.range n).foldl step leds)[j]? =
      if j < n ∧ sel j then (leds[j]?).map (upd j) else leds[j]? := by
  induction n with
  | zero => simp
  | succ n ih =>
    rw [List.range_succ, List.foldl_append, List.foldl_cons, List.foldl_nil, hstep]
    by_cases hj : j = n
    · subst hj
      rw [ih]
      by_cases hs : sel j <;> simp [hs]
    · rw [ih]
      have : (j < n + 1) ↔ (j < n) := by omega
      simp [hj, this]

theorem getElem?_set_eq_map (leds : List CRGB) (i j : Nat) (color : CRGB) :
    (leds.set i color)[j]? = if j = i then (leds[j]?).map (fun _ => color) else leds[j]? := by
  rw [List.getElem?_set]
  by_cases h : j = i
  · subst h
    by_cases hl : j < leds.length
    · simp [hl]
    · simp [hl, List.getElem?_eq_none (Nat.le_of_not_lt hl)]
  · have h2 : ¬ i = j := fun e => h e.symm
    simp [h, h2]

theorem getElem?_modify_eq_map (leds : List CRGB) (i j : Nat) (f : CRGB → CRGB) :
    (List.modify f i leds)[j]? = if j = i then (leds[j]?).map f else leds[j]? := by
  rw [List.getElem?_modify]
  by_cases h : j = i
  · subst h
    cases leds[j]? <;> simp
  · have h2 : ¬ i = j := fun e => h e.symm
    cases leds[j]? <;> simp [h, h2]

/-- Pointwise description of `setPixelAR`. -/
theorem setPixelAR_getElem? (L : Layout) (angle dAngle radius dRadius : U8) (color : CRGB)
    (leds : List CRGB) (j : Nat) :
    (setPixelAR L angle dAngle radius dRadius color leds)[j]? =
      if j < L.NUM_PIXELS ∧ Selected L angle dAngle (qsub8 radius dRadius) (qadd8 radius dRadius) j
      then (leds[j]?).map (fun _ => color) else leds[j]? := by
  unfold setPixelAR
  apply foldl_range_getElem? _
    (fun i => Selected L angle dAngle (qsub8 radius dRadius) (qadd8 radius dRadius) i)
    (fun _ _ => color)
  intro leds i k
  have h := code_test_iff L angle dAngle (qsub8 radius dRadius) (qadd8 radius dRadius) i
  by_cases hs : Selected L angle dAngle (qsub8 radius dRadius) (qadd8 radius dRadius) i
  · have hc := h.mpr hs
    simp only [hc.1, hc.2, hs, if_true, and_true, true_and, getElem?_set_eq_map]
  · have hc := fun x => hs (h.mp x)
    simp only [hs, and_false, if_false]
    by_cases h1 : L.ro i ≤ qadd8 radius dRadius ∧ L.ro i ≥ qsub8 radius dRadius
    · have h2 : ¬ min (sub8 (L.ao i) angle) (sub8 angle (L.ao i)) ≤ dAngle := fun x => hc ⟨h1, x⟩
      simp only [h1, h2, if_true, if_false, and_self]
    · simp only [h1, if_false]

/-- Pointwise description of `andPixelAR`. -/
theorem andPixelAR_getElem? (L : Layout) (angle dAngle startRadius endRadius : U8) (color : CRGB)
    (leds : List CRGB) (j : Nat) :
    (andPixelAR L angle dAngle startRadius endRadius color leds)[j]? =
      if j < L.NUM_PIXELS ∧ Selected L angle dAngle startRadius endRadius j
      then (leds[j]?).map (fun c => c.add color) else leds[j]? := by
  unfold andPixelAR
  apply foldl_range_getElem? _
    (fun i => Selected L angle dAngle startRadius endRadius i)
    (fun _ c => c.add color)
  intro leds i k
  have h := code_test_iff L angle dAngle startRadius endRadius i
  by_cases hs : Selected L angle dAngle startRadius endRadius i
  · have hc := h.mpr hs
    simp only [hc.1, hc.2, hs, if_true, and_true, true_and, getElem?_modify_eq_map]
  · have hc := fun x => hs (h.mp x)
    simp only [hs, and_false, if_false]
    by_cases h1 : L.ro i ≤ endRadius ∧ L.ro i ≥ startRadius
    · have h2 : ¬ min (sub8 (L.ao i) angle) (sub8 angle (L.ao i)) ≤ dAngle := fun x => hc ⟨h1, x⟩
      simp only [h1, h2, if_true, if_false, and_self]
    · simp only [h1, if_false]

/-- Pointwise description of a fallible `for` loop over `0 .. n-1`, when it returns. -/
theorem foldlM_range_getElem? (step : List CRGB → Nat → Option (List CRGB)) (sel : Nat → Prop)
    [DecidablePred sel] (upd : Nat → CRGB → CRGB)
    (hstep : ∀ leds i out, step leds i = some out → ∀ j,
      out[j]? = if j = i ∧ sel i then (leds[j]?).map (upd i) else leds[j]?)
    (n : Nat) (leds out : List CRGB) (h : (List.range n).foldlM step leds = some out) (j : Nat) :
    out[j]? = if j < n ∧ sel j then (leds[j]?).map (upd j) else leds[j]? := by
  induction n generalizing out with
  | zero =>
    simp only [List.range_zero, List.foldlM_nil] at h
    cases h
    simp
  | succ n ih =>
    rw [List.range_succ, List.foldlM_append] at h
    cases hmid : (List.range n).foldlM step leds with
    | none => simp [hmid] at h
    | some mid =>
      rw [hmid] at h
      simp only [List.foldlM_cons, List.foldlM_nil, Option.some_bind, Option.pure_def, Option.bind_eq_bind,
        Option.bind_some] at h
      rw [hstep mid n out h j, ih mid hmid]
      by_cases hj : j = n
      · subst hj
        by_cases hs : sel j <;> simp [hs]
      · have : (j < n + 1) ↔ (j < n) := by omega
        simp [hj, this]

/-- A fallible `for` loop over `0 .. n-1` returns when its body does at every index below `n`. -/
theorem foldlM_range_isSome (step : List CRGB → Nat → Option (List CRGB)) (n : Nat)
    (hstep : ∀ leds i, i < n → ∃ out, step leds i = some out) (leds : List CRGB) :
    ∃ out, (List.range n).foldlM step leds = some out := by
  induction n with
  | zero => exact ⟨leds, by simp⟩
  | succ n ih =>
    obtain ⟨mid, hmid⟩ := ih (fun leds i hi => hstep leds i (Nat.lt_succ_of_lt hi))
    obtain ⟨out, hout⟩ := hstep mid n (Nat.lt_succ_self n)
    refine ⟨out, ?_⟩
    rw [List.range_succ, List.foldlM_append, hmid]
    simp [hout]

theorem map_eq_some (x in_max : Nat) (h : in_max ≠ 0) :
    map x 0 in_max 0 255 = some (((x * 255 / in_max : Nat) : Int)) := by
  have h0 : ¬ ((in_max : Int) = 0) := by omega
  simp only [map, sub_zero, add_zero, if_neg h0]
  rw [Int.ofNat_tdiv]
  push_cast
  rfl

/-- Pointwise description of `antialiasPixelAR`, when it returns. -/
theorem antialiasPixelAR_getElem? (L : Layout) (angle dAngle startRadius endRadius : U8)
    (color : CRGB) (leds : List CRGB) (n : Int) (out : List CRGB)
    (h : antialiasPixelAR L angle dAngle startRadius endRadius color leds n = some out)
    (j : Nat) :
    out[j]? = if j < n.toNat ∧ Selected L angle dAngle startRadius endRadius j
      then (leds[j]?).map (fun c => c.add (fadedColor L angle dAngle color j)) else leds[j]? := by
  unfold antialiasPixelAR at h
  refine foldlM_range_getElem? _
    (fun i => Selected L angle dAngle startRadius endRadius i)
    (fun i c => c.add (fadedColor L angle dAngle color i)) ?_ _ leds out h j
  intro leds i out hout k
  have h := code_test_iff L angle dAngle startRadius endRadius i
  by_cases hs : Selected L angle dAngle startRadius endRadius i
  · have hc := h.mpr hs
    simp only [hc.1, hc.2, if_true, and_self] at hout
    simp only [hs, and_true]
    cases hm : map (min (sub8 (L.ao i) angle) (sub8 angle (L.ao i))).val 0 dAngle.val 0 255 with
    | none =>
      rw [hm] at hout
      exact absurd hout (by simp)
    | some m =>
      rw [hm, Option.map_some', Option.some.injEq] at hout
      rw [← hout, getElem?_modify_eq_map, fadedColor, hm]
      rfl
  · have hc := fun x => hs (h.mp x)
    simp only [hs, and_false, if_false]
    by_cases h1 : L.ro i ≤ endRadius ∧ L.ro i ≥ startRadius
    · have h2 : ¬ min (sub8 (L.ao i) angle) (sub8 angle (L.ao i)) ≤ dAngle := fun x => hc ⟨h1, x⟩
      simp only [h1, h2, if_true, if_false, and_self, Option.some.injEq] at hout
      rw [hout]
    · simp only [h1, if_false, Option.some.injEq] at hout
      rw [hout]

/-- The call `antialiasPixelAR` returns a buffer unless a matched pixel meets a zero tolerance. -/
theorem antialiasPixelAR_isSome (L : Layout) (angle dAngle startRadius endRadius : U8)
    (color : CRGB) (leds : List CRGB) (n : Int)
    (hd : ∀ i, i < n.toNat → Selected L angle dAngle startRadius endRadius i → dAngle.val ≠ 0) :
    ∃ out, antialiasPixelAR L angle dAngle startRadius endRadius color leds n = some out := by
  unfold antialiasPixelAR
  apply foldlM_range_isSome
  intro leds i hi
  have h := code_test_iff L angle dAngle startRadius endRadius i
  by_cases h1 : L.ro i ≤ endRadius ∧ L.ro i ≥ startRadius
  · by_cases h2 : min (sub8 (L.ao i) angle) (sub8 angle (L.ao i)) ≤ dAngle
    · have hne := hd i hi (h.mp ⟨h1, h2⟩)
      simp only [h1, h2, if_true, and_self, map_eq_some _ _ hne, Option.map_some']
      exact ⟨_, rfl⟩
    · simp only [h1, h2, if_true, if_false, and_self]
      exact ⟨_, rfl⟩
  · simp only [h1, if_false]
    exact ⟨_, rfl⟩

theorem length_eq_of_getElem? (l₁ l₂ : List CRGB) (h : ∀ j : Nat, l₁[j]? = none ↔ l₂[j]? = none) :
    l₁.length = l₂.length := by
  have h1 := (h l₁.length).mp (List.getElem?_eq_none (Nat.le_refl _))
  have h2 := (h l₂.length).mpr (List.getElem?_eq_none (Nat.le_refl _))
  rw [List.getElem?_eq_none_iff] at h1 h2
  omega

theorem CRGB.add_add (old c : CRGB) : (old.add c).add c = old.addTwice c := by
  simp only [CRGB.add, CRGB.addTwice, qadd8, CRGB.mk.injEq, Fin.mk.injEq]
  omega

theorem CRGB.add_black (p : CRGB) : p.add ⟨0, 0, 0⟩ = p := by
  obtain ⟨r, g, b⟩ := p
  have h0 : (0 : U8).val = 0 := rfl
  have hr := r.isLt
  have hg := g.isLt
  have hb := b.isLt
  simp only [CRGB.add, qadd8, CRGB.mk.injEq, Fin.ext_iff, h0]
  omega

theorem fadeToBlackBy_zero (c : CRGB) : c.fadeToBlackBy 0 = c := by
  obtain ⟨r, g, b⟩ := c
  have h0 : (0 : U8).val = 0 := rfl
  have hr := r.isLt
  have hg := g.isLt
  have hb := b.isLt
  simp only [CRGB.fadeToBlackBy, nscale8x3, toU8, CRGB.mk.injEq, Fin.ext_iff, h0]
  omega

theorem fadeToBlackBy_full (c : CRGB) : c.fadeToBlackBy 255 = ⟨0, 0, 0⟩ := by
  obtain ⟨r, g, b⟩ := c
  have h0 : (0 : U8).val = 0 := rfl
  have h255 : (255 : U8).val = 255 := rfl
  have hr := r.isLt
  have hg := g.isLt
  have hb := b.isLt
  simp only [CRGB.fadeToBlackBy, nscale8x3, toU8, CRGB.mk.injEq, Fin.ext_iff, h0, h255]
  omega

theorem intToU8_natCast (n : Nat) (h : n ≤ 255) : (intToU8 (n : Int)).val = n := by
  simp only [intToU8]
  omega

/-- The fade `map(d, 0, dAngle, 0, 255)` stored in a `uint8_t`, for `d` up to a non-zero `dAngle`. -/
theorem fade_eq (d dAngle : Nat) (hne : dAngle ≠ 0) (hle : d ≤ dAngle) :
    ∃ f : U8, (map d 0 dAngle 0 255).map intToU8 = some f ∧ f.val = d * 255 / dAngle := by
  have hb : d * 255 / dAngle ≤ 255 :=
    Nat.div_le_of_le_mul (by omega)
  exact ⟨intToU8 ((d * 255 / dAngle : Nat) : Int), by rw [map_eq_some d dAngle hne]; rfl,
    intToU8_natCast _ hb⟩

theorem fade_strictMono (d1 d2 dAngle : Nat) (hne : dAngle ≠ 0) (h12 : d1 < d2)
    (hA : dAngle ≤ 255) : d1 * 255 / dAngle < d2 * 255 / dAngle := by
  have hpos : 0 < dAngle := Nat.pos_of_ne_zero hne
  have h1 : d1 * 255 + dAngle ≤ d2 * 255 := by omega
  have h2 : (d1 * 255 + dAngle) / dAngle = d1 * 255 / dAngle + 1 := Nat.add_div_right _ hpos
  have h3 : (d1 * 255 + dAngle) / dAngle ≤ d2 * 255 / dAngle := Nat.div_le_div_right h1
  omega

/-! ## The radial-order tables -/

theorem LookupTree.get_ofList (d : Nat) (l : List Nat) (i : Nat) (h : i < 2 ^ d) :
    LookupTree.get d (LookupTree.ofList d l) i = l.getD i 0 := by
  induction d generalizing l i with
  | zero =>
    have hi : i = 0 := by simpa using h
    subst hi
    cases l <;> rfl
  | succ d ih =>
    simp only [LookupTree.ofList, LookupTree.get]
    have hp : 2 ^ (d + 1) = 2 ^ d + 2 ^ d := by rw [Nat.pow_succ]; omega
    split_ifs with hi
    · rw [ih _ _ hi, List.getD_eq_getElem?_getD, List.getD_eq_getElem?_getD,
        List.getElem?_take, if_pos hi]
    · rw [ih _ _ (by omega), List.getD_eq_getElem?_getD, List.getD_eq_getElem?_getD,
        List.getElem?_drop]
      congr 2
      omega

theorem inverseTables_sound (d n : Nat) (p2f f2p : List Nat)
    (h : inverseTables d n p2f f2p = true) :
    p2f.length = n ∧ f2p.length = n ∧
      ∀ p, p < n → p2f.getD p 0 < n ∧ f2p.getD p 0 < n ∧
        f2p.getD (p2f.getD p 0) 0 = p ∧ p2f.getD (f2p.getD p 0) 0 = p := by
  simp only [inverseTables, Bool.and_eq_true, beq_iff_eq, List.all_eq_true, List.mem_range,
    decide_eq_true_eq] at h
  obtain ⟨⟨⟨h1, h2⟩, hd⟩, h3⟩ := h
  refine ⟨h1, h2, fun p hp => ?_⟩
  obtain ⟨⟨⟨a, b⟩, c⟩, e⟩ := h3 p hp
  rw [LookupTree.get_ofList _ _ _ (by omega)] at a b
  rw [LookupTree.get_ofList _ _ p (by omega), LookupTree.get_ofList _ _ _ (by omega)] at c e
  exact ⟨a, b, c, e⟩

/-- A table of length `n` with entries below `n` and a left inverse lists `0 .. n-1` in some order. -/
theorem perm_range_of_left_inverse (n : Nat) (p2f f2p : List Nat) (hlen : p2f.length = n)
    (hlt : ∀ p, p < n → p2f.getD p 0 < n)
    (hinv : ∀ p, p < n → f2p.getD (p2f.getD p 0) 0 = p) :
    List.Perm p2f (List.range n) := by
  have hnodup : p2f.Nodup := by
    rw [List.nodup_iff_injective_get]
    intro i j hij
    have hi : i.val < n := hlen ▸ i.isLt
    have hj : j.val < n := hlen ▸ j.isLt
    have e1 : p2f.getD i.val 0 = p2f.get i := by
      rw [List.getD_eq_getElem?_getD, List.getElem?_eq_getElem i.isLt]; rfl
    have e2 : p2f.getD j.val 0 = p2f.get j := by
      rw [List.getD_eq_getElem?_getD, List.getElem?_eq_getElem j.isLt]; rfl
    have h1 := hinv i.val hi
    have h2 := hinv j.val hj
    rw [e1, hij, ← e2, h2] at h1
    exact Fin.ext h1.symm
  apply List.perm_of_nodup_nodup_toFinset_eq hnodup (List.nodup_range n)
  apply Finset.eq_of_subset_of_card_le
  · intro x hx
    rw [List.mem_toFinset] at hx
    obtain ⟨i, hi⟩ := List.get_of_mem hx
    have hin : i.val < n := hlen ▸ i.isLt
    have e1 : p2f.getD i.val 0 = p2f.get i := by
      rw [List.getD_eq_getElem?_getD, List.getElem?_eq_getElem i.isLt]; rfl
    have := hlt i.val hin
    rw [e1, hi] at this
    simpa using this
  · rw [List.toFinset_card_of_nodup hnodup, List.toFinset_card_of_nodup (List.nodup_range n)]
    simp [hlen]

/-! ## Properties of the tables and selectors -/

/-- C1: on each of the five spiral boards both radial-order tables have `NUM_PIXELS` entries,
every entry is below `NUM_PIXELS`, `fibonacciToPhysical[physicalToFibonacci[p]] = p` and
`physicalToFibonacci[fibonacciToPhysical[p]] = p` for every index below `NUM_PIXELS`, and
`physicalToFibonacci` lists `0 .. NUM_PIXELS-1` in some order. -/
theorem spiral_tables_inverse (B : SpiralBoard) (hB : B ∈ spiralBoards) :
    B.physicalToFibonacci.length = B.NUM_PIXELS ∧
    B.fibonacciToPhysical.length = B.NUM_PIXELS ∧
    (∀ p, p < B.NUM_PIXELS →
      B.physicalToFibonacci.getD p 0 < B.NUM_PIXELS ∧
      B.fibonacciToPhysical.getD p 0 < B.NUM_PIXELS ∧
      B.fibonacciToPhysical.getD (B.physicalToFibonacci.getD p 0) 0 = p ∧
      B.physicalToFibonacci.getD (B.fibonacciToPhysical.getD p 0) 0 = p) ∧
    List.Perm B.physicalToFibonacci (List.range B.NUM_PIXELS) := by
  have hall := inverseTables_spiralBoards
  rw [List.all_eq_true] at hall
  obtain ⟨h1, h2, h3⟩ := inverseTables_sound _ _ _ _ (hall B hB)
  exact ⟨h1, h2, h3,
    perm_range_of_left_inverse _ _ B.fibonacciToPhysical h1 (fun p hp => (h3 p hp).1)
      (fun p hp => (h3 p hp).2.2.1)⟩

theorem spiral_tables_inverse_witness :
    fibonacci32 ∈ spiralBoards ∧
    fibonacci32.fibonacciToPhysical.getD (fibonacci32.physicalToFibonacci.getD 3 0) 0 = 3 :=
  ⟨by simp [spiralBoards],
   ((spiral_tables_inverse fibonacci32 (by simp [spiralBoards])).2.2.1 3 (by decide)).2.2.1⟩

/-- C2 fails as stated: on FIBONACCI512 pixel 68 has `radiusProxy[68] = 256`, outside the band
`[0, 0]`, and angle 200, yet `andPixelAR(200, 0, 0, 0, color)` adds `color` to it (the
`uint8_t` read of the entry is 0). -/
theorem andPixelAR_adds_outside_band_512 :
    FIBONACCI512.layout.radiusProxy.getD 68 0 = 256 ∧
    FIBONACCI512.layout.angles.getD 68 0 = 200 ∧
    ¬ ((0 : U8).val ≤ FIBONACCI512.layout.radiusProxy.getD 68 0 ∧
        FIBONACCI512.layout.radiusProxy.getD 68 0 ≤ (0 : U8).val) ∧
    (blackLeds 512)[68]? = some ⟨0, 0, 0⟩ ∧
    (andPixelAR FIBONACCI512.layout 200 0 0 0 color4 (blackLeds 512))[68]? =
      some (CRGB.add ⟨0, 0, 0⟩ color4) ∧
    CRGB.add ⟨0, 0, 0⟩ color4 = ⟨200, 0, 0⟩ := by
  have hb : (blackLeds 512)[68]? = some ⟨0, 0, 0⟩ :=
    blackLeds_getElem? 512 68 (by decide)
  refine ⟨by decide, by decide, by decide, hb, ?_, by decide⟩
  rw [andPixelAR_getElem?, if_pos (by decide), hb]
  rfl

/-- C2, amended: for every pixel `i` whose entry `radiusProxy[i]` is below 256, `andPixelAR`
adds `color` to pixel `i` exactly when `startRadius <= radiusProxy[i] <= endRadius` and the
circular distance of `angles[i]` to `angle` is at most `dAngle`, and keeps its value otherwise.
On the four-pixel layout with angles `[0, 64, 128, 192]` and radius proxies `[0, 1, 2, 3]`,
target 0, tolerance 10 and band `[0, 3]` match pixel 0 only. -/
theorem andPixelAR_adds_iff_selected (L : Layout) (angle dAngle startRadius endRadius : U8)
    (color : CRGB) (leds : List CRGB) :
    (∀ i : Nat, L.radiusProxy.getD i 0 < 256 →
      (andPixelAR L angle dAngle startRadius endRadius color leds)[i]? =
      if i < L.NUM_PIXELS ∧
          (startRadius.val ≤ L.radiusProxy.getD i 0 ∧ L.radiusProxy.getD i 0 ≤ endRadius.val ∧
            min ((((L.angles.getD i 0 : Nat) : Int) - angle.val) % 256)
              (((angle.val : Int) - (L.angles.getD i 0 : Nat)) % 256) ≤ dAngle.val)
      then (leds[i]?).map (fun c => c.add color) else leds[i]?) ∧
    (layout4.angles = [0, 64, 128, 192] ∧ layout4.radiusProxy = [0, 1, 2, 3]) ∧
    (∀ i : Nat, i < 4 → (Matched layout4 0 10 0 3 i ↔ i = 0)) ∧
    (∀ p0 p1 p2 p3 : CRGB,
      andPixelAR layout4 0 10 0 3 color [p0, p1, p2, p3] = [p0.add color, p1, p2, p3]) := by
  have hsel : ∀ i : Nat, i < 4 → (Selected layout4 0 10 0 3 i ↔ i = 0) := by decide
  refine ⟨fun i hi => ?_, ⟨rfl, rfl⟩, by decide, ?_⟩
  · rw [andPixelAR_getElem?]
    exact if_congr (and_congr_right fun _ =>
      selected_iff_matched L angle dAngle startRadius endRadius i hi) rfl rfl
  intro p0 p1 p2 p3
  apply List.ext_getElem?
  intro j
  rw [andPixelAR_getElem?]
  have hN : layout4.NUM_PIXELS = 4 := rfl
  rw [hN]
  by_cases hj : j < 4
  · have h := hsel j hj
    match j, hj, h with
    | 0, _, h => simp [h.mpr rfl]
    | 1, _, h => simp [h]
    | 2, _, h => simp [h]
    | 3, _, h => simp [h]
  · have h4 : 4 ≤ j := Nat.le_of_not_lt hj
    have e1 : [p0.add color, p1, p2, p3][j]? = none :=
      List.getElem?_eq_none (by simpa using h4)
    have e2 : [p0, p1, p2, p3][j]? = none := List.getElem?_eq_none (by simpa using h4)
    simp [hj, e1, e2]

theorem andPixelAR_adds_iff_selected_witness :
    layout4.radiusProxy.getD 0 0 < 256 ∧
    (andPixelAR layout4 0 10 0 3 color4 leds4)[0]? =
      (if 0 < layout4.NUM_PIXELS ∧
          ((0 : U8).val ≤ layout4.radiusProxy.getD 0 0 ∧
            layout4.radiusProxy.getD 0 0 ≤ (3 : U8).val ∧
            min ((((layout4.angles.getD 0 0 : Nat) : Int) - (0 : U8).val) % 256)
              ((((0 : U8).val : Int) - (layout4.angles.getD 0 0 : Nat)) % 256) ≤ (10 : U8).val)
        then (leds4[0]?).map (fun c => c.add color4) else leds4[0]?) ∧
    (0 < 4 ∧ (Matched layout4 0 10 0 3 0 ↔ 0 = 0)) ∧
    andPixelAR layout4 0 10 0 3 color4 [⟨0, 0, 0⟩, ⟨1, 2, 3⟩, ⟨0, 0, 0⟩, ⟨250, 0, 9⟩] =
      [CRGB.add ⟨0, 0, 0⟩ color4, ⟨1, 2, 3⟩, ⟨0, 0, 0⟩, ⟨250, 0, 9⟩] :=
  ⟨by decide,
   (andPixelAR_adds_iff_selected layout4 0 10 0 3 color4 leds4).1 0 (by decide),
   ⟨by decide, (andPixelAR_adds_iff_selected layout4 0 10 0 3 color4 []).2.2.1 0 (by decide)⟩,
   (andPixelAR_adds_iff_selected layout4 0 10 0 3 color4 []).2.2.2 _ _ _ _⟩

/-- C3: the angular difference `min(sub8(a, b), sub8(b, a))` of the selectors is the circular
distance `min(|a - b|, 256 - |a - b|)` (which is 0 when `a = b`); between 2 and 254 it is 4. -/
theorem adiff_eq_circular_distance (a b : U8) :
    ((min (sub8 a b) (sub8 b a)).val : Int) =
        min |(a.val : Int) - b.val| (256 - |(a.val : Int) - b.val|) ∧
    (a = b → min (sub8 a b) (sub8 b a) = 0) ∧
    min (sub8 2 254) (sub8 254 2) = 4 ∧ min (sub8 254 2) (sub8 2 254) = 4 := by
  have ha := a.isLt
  have hb := b.isLt
  refine ⟨?_, ?_, by decide, by decide⟩
  · rw [Fin.coe_min]
    simp only [sub8]
    rcases abs_cases ((a.val : Int) - b.val) with ⟨h, _⟩ | ⟨h, _⟩ <;> rw [h] <;> omega
  · intro hab
    subst hab
    apply Fin.ext
    rw [Fin.coe_min]
    simp only [sub8]
    have h0 : (0 : U8).val = 0 := rfl
    omega

/-- C4: the angular difference `min(sub8(a, b), sub8(b, a))` is the same for `(a, b)` and
`(b, a)`, and is at most 128. -/
theorem adiff_symmetric_le_128 (a b : U8) :
    min (sub8 a b) (sub8 b a) = min (sub8 b a) (sub8 a b) ∧
    (min (sub8 a b) (sub8 b a)).val ≤ 128 := by
  have ha := a.isLt
  have hb := b.isLt
  refine ⟨min_comm _ _, ?_⟩
  rw [Fin.coe_min]
  simp only [sub8]
  omega

/-- C5 fails as stated: on FIBONACCI512 pixel 0 has `radiusProxy[0] = 510`, above the clamped
band `[240, 255]` of radius 250 and tolerance 10, and angle 205, yet
`setPixelAR(205, 0, 250, 10, color)` overwrites it (the `uint8_t` read of the entry is 254). -/
theorem setPixelAR_overwrites_outside_band_512 :
    FIBONACCI512.layout.radiusProxy.getD 0 0 = 510 ∧
    FIBONACCI512.layout.angles.getD 0 0 = 205 ∧
    ¬ ((FIBONACCI512.layout.radiusProxy.getD 0 0 : Int) ≤
        min 255 (((250 : U8).val : Int) + (10 : U8).val)) ∧
    (blackLeds 512)[0]? = some ⟨0, 0, 0⟩ ∧
    (setPixelAR FIBONACCI512.layout 205 0 250 10 color4 (blackLeds 512))[0]? = some color4 ∧
    color4 ≠ ⟨0, 0, 0⟩ := by
  have hb : (blackLeds 512)[0]? = some ⟨0, 0, 0⟩ :=
    blackLeds_getElem? 512 0 (by decide)
  refine ⟨by decide, by decide, by decide, hb, ?_, by decide⟩
  rw [setPixelAR_getElem?, if_pos (by decide), hb]
  rfl

/-- C5, amended: for every pixel `i` whose entry `radiusProxy[i]` is below 256, `setPixelAR`
overwrites pixel `i` with `color` exactly when
`max(0, radius - dRadius) <= radiusProxy[i] <= min(255, radius + dRadius)` and the circular
angular distance of `angles[i]` to `angle` is at most `dAngle`, and leaves it as it was
otherwise. The band does not wrap: radius 250 with tolerance 10 gives `[240, 255]`, radius 3
with tolerance 10 gives `[0, 13]`. -/
theorem setPixelAR_overwrites_clamped_band (L : Layout) (angle dAngle radius dRadius : U8)
    (color : CRGB) (leds : List CRGB) :
    (∀ i : Nat, L.radiusProxy.getD i 0 < 256 →
      (setPixelAR L angle dAngle radius dRadius color leds)[i]? =
      if i < L.NUM_PIXELS ∧
          (max 0 ((radius.val : Int) - dRadius.val) ≤ (L.radiusProxy.getD i 0 : Nat) ∧
            ((L.radiusProxy.getD i 0 : Nat) : Int) ≤ min 255 ((radius.val : Int) + dRadius.val) ∧
            circularDistance (L.angles.getD i 0) angle.val ≤ dAngle.val)
      then (leds[i]?).map (fun _ => color) else leds[i]?) ∧
    (qsub8 250 10, qadd8 250 10) = ((240 : U8), (255 : U8)) ∧
    (qsub8 3 10, qadd8 3 10) = ((0 : U8), (13 : U8)) := by
  refine ⟨fun i hi => ?_, by decide, by decide⟩
  rw [setPixelAR_getElem?]
  have hr := radius.isLt
  have hd := dRadius.isLt
  have hro := L.ro_val_of_lt i hi
  have hiff : Selected L angle dAngle (qsub8 radius dRadius) (qadd8 radius dRadius) i ↔
      (max 0 ((radius.val : Int) - dRadius.val) ≤ (L.radiusProxy.getD i 0 : Nat) ∧
        ((L.radiusProxy.getD i 0 : Nat) : Int) ≤ min 255 ((radius.val : Int) + dRadius.val) ∧
        circularDistance (L.angles.getD i 0) angle.val ≤ dAngle.val) := by
    simp only [Selected, qsub8, qadd8, hro]
    omega
  rw [if_congr (and_congr_right fun _ => hiff) rfl rfl]

theorem setPixelAR_overwrites_clamped_band_witness :
    layout4.radiusProxy.getD 3 0 < 256 ∧
    (setPixelAR layout4 192 0 3 10 color4 leds4)[3]? =
      (if 3 < layout4.NUM_PIXELS ∧
          (max 0 (((3 : U8).val : Int) - (10 : U8).val) ≤ (layout4.radiusProxy.getD 3 0 : Nat) ∧
            ((layout4.radiusProxy.getD 3 0 : Nat) : Int) ≤
              min 255 (((3 : U8).val : Int) + (10 : U8).val) ∧
            circularDistance (layout4.angles.getD 3 0) (192 : U8).val ≤ (0 : U8).val)
        then (leds4[3]?).map (fun _ => color4) else leds4[3]?) :=
  ⟨by decide,
   (setPixelAR_overwrites_clamped_band layout4 192 0 3 10 color4 leds4).1 3 (by decide)⟩

/-- C6: calling `setPixelAR` a second time with the same arguments leaves the buffer of the
first call unchanged. -/
theorem setPixelAR_idempotent (L : Layout) (angle dAngle radius dRadius : U8) (color : CRGB)
    (leds : List CRGB) :
    setPixelAR L angle dAngle radius dRadius color
        (setPixelAR L angle dAngle radius dRadius color leds) =
      setPixelAR L angle dAngle radius dRadius color leds := by
  apply List.ext_getElem?
  intro j
  rw [setPixelAR_getElem?, setPixelAR_getElem?]
  split_ifs
  · cases leds[j]? <;> rfl
  · rfl

/-- C7: after two calls of `andPixelAR` with the same arguments every matched pixel holds, in
each channel, `min(255, old + 2*c)`, and every other pixel holds its old value. -/
theorem andPixelAR_twice (L : Layout) (angle dAngle startRadius endRadius : U8) (color : CRGB)
    (leds : List CRGB) (i : Nat) :
    (andPixelAR L angle dAngle startRadius endRadius color
        (andPixelAR L angle dAngle startRadius endRadius color leds))[i]? =
      if i < L.NUM_PIXELS ∧ Selected L angle dAngle startRadius endRadius i
      then (leds[i]?).map (fun old => old.addTwice color) else leds[i]? := by
  rw [andPixelAR_getElem?, andPixelAR_getElem?]
  split_ifs
  · cases leds[i]? with
    | none => rfl
    | some old => simp only [Option.map_some', CRGB.add_add]
  · rfl

/-- C8: with a tolerance of at least 1, `antialiasPixelAR` returns a buffer in which every
matched pixel at circular distance 0 from the target has received the unattenuated `color`
(per-channel saturating add), and every matched pixel at distance `dAngle` is unchanged. -/
theorem antialiasPixelAR_full_at_target_none_at_edge (L : Layout)
    (angle dAngle startRadius endRadius : U8) (color : CRGB) (leds : List CRGB)
    (hd : 1 ≤ dAngle.val) :
    ∃ out, antialiasPixelAR L angle dAngle startRadius endRadius color leds L.NUM_PIXELS
        = some out ∧
      ∀ i : Nat, i < L.NUM_PIXELS → Selected L angle dAngle startRadius endRadius i →
        (circularDistance (L.angles.getD i 0) angle.val = 0 →
          out[i]? = (leds[i]?).map (fun c => c.add color)) ∧
        (circularDistance (L.angles.getD i 0) angle.val = dAngle.val →
          out[i]? = leds[i]?) := by
  have hne : dAngle.val ≠ 0 := by omega
  obtain ⟨out, hout⟩ := antialiasPixelAR_isSome L angle dAngle startRadius endRadius color leds
    L.NUM_PIXELS (fun _ _ _ => hne)
  refine ⟨out, hout, fun i hi hs => ?_⟩
  have hpt := antialiasPixelAR_getElem? L angle dAngle startRadius endRadius color leds
    L.NUM_PIXELS out hout i
  have hi2 : i < (L.NUM_PIXELS : Int).toNat := by simpa using hi
  rw [if_pos ⟨hi2, hs⟩] at hpt
  have hdist := adiff_toU8 (L.angles.getD i 0) angle
  constructor
  · intro h0
    rw [h0] at hdist
    have hz : (min (sub8 (L.ao i) angle) (sub8 angle (L.ao i))).val = 0 := by
      simp only [Layout.ao]; omega
    have hf : fadedColor L angle dAngle color i = color := by
      rw [fadedColor, hz, map_eq_some 0 _ hne]
      simp only [Nat.zero_mul, Nat.zero_div, Option.getD_some]
      exact fadeToBlackBy_zero color
    rw [hpt, hf]
  · intro hA
    rw [hA] at hdist
    have hz : (min (sub8 (L.ao i) angle) (sub8 angle (L.ao i))).val = dAngle.val := by
      simp only [Layout.ao]; omega
    have hf : fadedColor L angle dAngle color i = ⟨0, 0, 0⟩ := by
      rw [fadedColor, hz, map_eq_some _ _ hne,
        Nat.mul_div_right 255 (Nat.pos_of_ne_zero hne)]
      exact fadeToBlackBy_full color
    rw [hpt, hf]
    cases leds[i]? with
    | none => rfl
    | some p => simp only [Option.map_some', CRGB.add_black]

theorem antialiasPixelAR_full_at_target_none_at_edge_witness :
    1 ≤ (64 : U8).val ∧
    ∃ out, antialiasPixelAR layout4 0 64 0 3 color4 leds4 layout4.NUM_PIXELS = some out ∧
      ∀ i : Nat, i < layout4.NUM_PIXELS → Selected layout4 0 64 0 3 i →
        (circularDistance (layout4.angles.getD i 0) (0 : U8).val = 0 →
          out[i]? = (leds4[i]?).map (fun c => c.add color4)) ∧
        (circularDistance (layout4.angles.getD i 0) (0 : U8).val = (64 : U8).val →
          out[i]? = leds4[i]?) :=
  ⟨by decide,
   antialiasPixelAR_full_at_target_none_at_edge layout4 0 64 0 3 color4 leds4 (by decide)⟩

/-- C9: for a tolerance `1 <= dAngle <= 255` and distances `d1 < d2 <= dAngle`, the fade
`map(d, 0, dAngle, 0, 255)` is `d * 255 / dAngle`, and the intensity scale `255 - fade` that
`antialiasPixelAR` applies is strictly larger at `d1` than at `d2`; the scale is 255 at
distance 0 and 0 at distance `dAngle`. -/
theorem fade_scale_strictly_decreasing (dAngle d1 d2 : U8) (hd : 1 ≤ dAngle.val)
    (h12 : d1.val < d2.val) (h2 : d2.val ≤ dAngle.val) :
    ∃ f1 f2 f0 fA : U8,
      (map d1.val 0 dAngle.val 0 255).map intToU8 = some f1 ∧
      (map d2.val 0 dAngle.val 0 255).map intToU8 = some f2 ∧
      (map (0 : U8).val 0 dAngle.val 0 255).map intToU8 = some f0 ∧
      (map dAngle.val 0 dAngle.val 0 255).map intToU8 = some fA ∧
      f1.val = d1.val * 255 / dAngle.val ∧ f2.val = d2.val * 255 / dAngle.val ∧
      255 - f2.val < 255 - f1.val ∧ 255 - f0.val = 255 ∧ 255 - fA.val = 0 := by
  have hne : dAngle.val ≠ 0 := by omega
  have hA : dAngle.val ≤ 255 := by have := dAngle.isLt; omega
  obtain ⟨f1, hf1, e1⟩ := fade_eq d1.val dAngle.val hne (by omega)
  obtain ⟨f2, hf2, e2⟩ := fade_eq d2.val dAngle.val hne h2
  obtain ⟨f0, hf0, e0⟩ := fade_eq (0 : U8).val dAngle.val hne (Nat.zero_le _)
  obtain ⟨fA, hfA, eA⟩ := fade_eq dAngle.val dAngle.val hne (Nat.le_refl _)
  have hlt := fade_strictMono d1.val d2.val dAngle.val hne h12 hA
  have h2b := f2.isLt
  have hz : (0 : U8).val = 0 := rfl
  rw [hz, Nat.zero_mul, Nat.zero_div] at e0
  rw [Nat.mul_div_right 255 (Nat.pos_of_ne_zero hne)] at eA
  refine ⟨f1, f2, f0, fA, hf1, hf2, hf0, hfA, e1, e2, ?_, ?_, ?_⟩ <;> omega

theorem fade_scale_strictly_decreasing_witness :
    ∃ f1 f2 f0 fA : U8,
      (map (3 : U8).val 0 (10 : U8).val 0 255).map intToU8 = some f1 ∧
      (map (7 : U8).val 0 (10 : U8).val 0 255).map intToU8 = some f2 ∧
      (map (0 : U8).val 0 (10 : U8).val 0 255).map intToU8 = some f0 ∧
      (map (10 : U8).val 0 (10 : U8).val 0 255).map intToU8 = some fA ∧
      f1.val = (3 : U8).val * 255 / (10 : U8).val ∧ f2.val = (7 : U8).val * 255 / (10 : U8).val ∧
      255 - f2.val < 255 - f1.val ∧ 255 - f0.val = 255 ∧ 255 - fA.val = 0 :=
  fade_scale_strictly_decreasing 10 3 7 (by decide) (by decide) (by decide)

/-- C10 fails as stated: on FIBONACCI512 pixel 68 has `radiusProxy[68] = 256`, so it does not
satisfy the selection predicate for the band `[0, 0]`, yet `setPixelAR(0, 128, 0, 0, color)`
and `andPixelAR(0, 128, 0, 0, color)` both change it from black to `color`. -/
theorem selectors_change_unmatched_512 :
    FIBONACCI512.layout.radiusProxy.getD 68 0 = 256 ∧
    ¬ Matched FIBONACCI512.layout 0 128 (qsub8 0 0) (qadd8 0 0) 68 ∧
    ¬ Matched FIBONACCI512.layout 0 128 0 0 68 ∧
    (blackLeds 512)[68]? = some ⟨0, 0, 0⟩ ∧
    (setPixelAR FIBONACCI512.layout 0 128 0 0 color4 (blackLeds 512))[68]? = some color4 ∧
    (andPixelAR FIBONACCI512.layout 0 128 0 0 color4 (blackLeds 512))[68]? = some color4 ∧
    color4 ≠ ⟨0, 0, 0⟩ := by
  have hb : (blackLeds 512)[68]? = some ⟨0, 0, 0⟩ :=
    blackLeds_getElem? 512 68 (by decide)
  refine ⟨by decide, by decide, by decide, hb, ?_, ?_, by decide⟩
  · rw [setPixelAR_getElem?, if_pos (by decide), hb]
    rfl
  · rw [andPixelAR_getElem?, if_pos (by decide), hb]
    rfl

/-- C10, amended: each selector keeps the length of the buffer, writes no index at or beyond
`NUM_PIXELS`, and leaves every pixel whose entry `radiusProxy[i]` is below 256 and which does
not satisfy the selection predicate (entry in the band and circular angular distance within
`dAngle`) with the value it had; `antialiasPixelAR` (default count) returns such a buffer
whenever it returns, and it returns whenever `dAngle` is not zero. -/
theorem selectors_frame (L : Layout) (angle dAngle r1 r2 : U8) (color : CRGB)
    (leds : List CRGB) :
    ((setPixelAR L angle dAngle r1 r2 color leds).length = leds.length ∧
      (∀ j : Nat, L.NUM_PIXELS ≤ j →
        (setPixelAR L angle dAngle r1 r2 color leds)[j]? = leds[j]?) ∧
      ∀ j : Nat, L.radiusProxy.getD j 0 < 256 →
        ¬ Matched L angle dAngle (qsub8 r1 r2) (qadd8 r1 r2) j →
        (setPixelAR L angle dAngle r1 r2 color leds)[j]? = leds[j]?) ∧
    ((andPixelAR L angle dAngle r1 r2 color leds).length = leds.length ∧
      (∀ j : Nat, L.NUM_PIXELS ≤ j →
        (andPixelAR L angle dAngle r1 r2 color leds)[j]? = leds[j]?) ∧
      ∀ j : Nat, L.radiusProxy.getD j 0 < 256 → ¬ Matched L angle dAngle r1 r2 j →
        (andPixelAR L angle dAngle r1 r2 color leds)[j]? = leds[j]?) ∧
    ((∀ out, antialiasPixelAR L angle dAngle r1 r2 color leds L.NUM_PIXELS = some out →
        out.length = leds.length ∧
        (∀ j : Nat, L.NUM_PIXELS ≤ j → out[j]? = leds[j]?) ∧
        ∀ j : Nat, L.radiusProxy.getD j 0 < 256 → ¬ Matched L angle dAngle r1 r2 j →
          out[j]? = leds[j]?) ∧
      (dAngle.val ≠ 0 →
        ∃ out, antialiasPixelAR L angle dAngle r1 r2 color leds L.NUM_PIXELS = some out)) := by
  refine ⟨⟨?_, ?_, ?_⟩, ⟨?_, ?_, ?_⟩, ?_, ?_⟩
  · apply length_eq_of_getElem?
    intro j
    rw [setPixelAR_getElem?]
    split_ifs <;> simp
  · intro j hj
    rw [setPixelAR_getElem?, if_neg]
    rintro ⟨h1, _⟩
    omega
  · intro j hlt hj
    rw [setPixelAR_getElem?, if_neg]
    rintro ⟨_, h2⟩
    exact hj ((selected_iff_matched L angle dAngle _ _ j hlt).mp h2)
  · apply length_eq_of_getElem?
    intro j
    rw [andPixelAR_getElem?]
    split_ifs <;> simp
  · intro j hj
    rw [andPixelAR_getElem?, if_neg]
    rintro ⟨h1, _⟩
    omega
  · intro j hlt hj
    rw [andPixelAR_getElem?, if_neg]
    rintro ⟨_, h2⟩
    exact hj ((selected_iff_matched L angle dAngle _ _ j hlt).mp h2)
  · intro out hout
    have hpt := antialiasPixelAR_getElem? L angle dAngle r1 r2 color leds L.NUM_PIXELS out hout
    refine ⟨?_, ?_, ?_⟩
    · apply length_eq_of_getElem?
      intro j
      rw [hpt]
      split_ifs <;> simp
    · intro j hj
      rw [hpt, if_neg]
      rintro ⟨h1, _⟩
      have : j < L.NUM_PIXELS := by simpa using h1
      omega
    · intro j hlt hj
      rw [hpt, if_neg]
      rintro ⟨_, h2⟩
      exact hj ((selected_iff_matched L angle dAngle _ _ j hlt).mp h2)
  · intro hd
    exact antialiasPixelAR_isSome L angle dAngle r1 r2 color leds L.NUM_PIXELS
      (fun _ _ _ => hd)

theorem selectors_frame_witness :
    (layout4.radiusProxy.getD 1 0 < 256 ∧ ¬ Matched layout4 0 10 0 3 1) ∧
    (andPixelAR layout4 0 10 0 3 color4 leds4)[1]? = leds4[1]? ∧
    (10 : U8).val ≠ 0 ∧
    ∃ out, antialiasPixelAR layout4 0 10 0 3 color4 leds4 layout4.NUM_PIXELS = some out :=
  ⟨⟨by decide, by decide⟩,
   (selectors_frame layout4 0 10 0 3 color4 leds4).2.1.2.2 1 (by decide) (by decide),
   by decide,
   (selectors_frame layout4 0 10 0 3 color4 leds4).2.2.2 (by decide)⟩


/-! ## Lemmas on the spiral line drawer -/

theorem spiralBoards_bounds (B : SpiralBoard) (hB : B ∈ spiralBoards) :
    0 < B.NUM_PIXELS ∧ B.NUM_PIXELS ≤ 512 := by
  have h : ∀ B ∈ spiralBoards, 0 < B.NUM_PIXELS ∧ B.NUM_PIXELS ≤ 512 := by decide
  exact h B hB

/-- Every read of `physicalToFibonacci` on a spiral board gives a rank below `NUM_PIXELS`. -/
theorem physicalToFibonacci_getD_lt (B : SpiralBoard) (hB : B ∈ spiralBoards) (s : Nat) :
    B.physicalToFibonacci.getD s 0 < B.NUM_PIXELS := by
  have hall := inverseTables_spiralBoards
  rw [List.all_eq_true] at hall
  obtain ⟨h1, _, h3⟩ := inverseTables_sound _ _ _ _ (hall B hB)
  by_cases hs : s < B.NUM_PIXELS
  · exact (h3 s hs).1
  · rw [List.getD_eq_default _ _ (by omega)]
    exact (spiralBoards_bounds B hB).1

theorem foldl_eq_init_of_fixed {σ : Type} (f : σ → Nat → σ) (l : List Nat) (init : σ)
    (h : ∀ i, i ∈ l → f init i = init) : l.foldl f init = init := by
  induction l with
  | nil => rfl
  | cons x xs ih =>
    rw [List.foldl_cons, h x (List.mem_cons_self x xs)]
    exact ih (fun i hi => h i (List.mem_cons_of_mem x hi))

/-- When every rank is below `step`, the start search keeps its initial values. -/
theorem search_eq_init_of_lt (B : SpiralBoard) (angle : U8) (step : Int)
    (h : ∀ i, (B.physicalToFibonacci.getD i 0 : Int) < step) :
    drawSpiralLine.search B angle step = (0, 255) := by
  unfold drawSpiralLine.search
  apply foldl_eq_init_of_fixed
  intro i _
  simp only [h i, if_true]

/-- With a non-zero `step` in the range of `int`, the inward walk ends within `NUM_PIXELS + 1`
tests of its condition. -/
theorem walk_isSome (B : SpiralBoard) (hN : B.NUM_PIXELS ≤ 512) (step : Int) (color : CRGB)
    (h0 : step ≠ 0) (hlo : -2147483648 ≤ step) (hhi : step ≤ 2147483647) (fuel : Nat) :
    ∀ (f : Int) (leds : List CRGB), 0 ≤ f → f < B.NUM_PIXELS →
      (0 < step → f.toNat < fuel) → (step < 0 → ((B.NUM_PIXELS : Int) - f).toNat < fuel) →
      ∃ out, drawSpiralLine.walk B step color fuel f leds = some out := by
  induction fuel with
  | zero =>
    intro f leds _ _ h1 h2
    rcases lt_or_gt_of_ne h0 with hs | hs
    · exact absurd (h2 hs) (Nat.not_lt_zero _)
    · exact absurd (h1 hs) (Nat.not_lt_zero _)
  | succ fuel ih =>
    intro f leds hf0 hfN h1 h2
    unfold drawSpiralLine.walk
    by_cases hc : toInt32 (f - step) ≥ 0 ∧ toInt32 (f - step) < B.NUM_PIXELS
    · rw [if_pos hc]
      have ht : toInt32 (f - step) = f - step := by
        have hc1 := hc.1
        have hc2 := hc.2
        simp only [toInt32] at hc1 hc2 ⊢
        omega
      rw [ht] at hc
      rw [ht]
      apply ih (f - step) _ hc.1 hc.2
      · intro hs
        have := h1 hs
        omega
      · intro hs
        have := h2 hs
        omega
    · rw [if_neg hc]
      exact ⟨leds, rfl⟩

/-- With `step = 0` the inward walk never ends when it starts at a rank inside the board. -/
theorem walk_zero_step (B : SpiralBoard) (hN : B.NUM_PIXELS ≤ 512) (color : CRGB) (fuel : Nat) :
    ∀ (f : Int) (leds : List CRGB), 0 ≤ f → f < B.NUM_PIXELS →
      drawSpiralLine.walk B 0 color fuel f leds = none := by
  induction fuel with
  | zero => intro f leds _ _; rfl
  | succ fuel ih =>
    intro f leds hf0 hfN
    unfold drawSpiralLine.walk
    have ht : toInt32 (f - 0) = f := by
      simp only [toInt32]
      omega
    rw [ht, if_pos ⟨hf0, hfN⟩]
    exact ih f _ hf0 hfN

/-- A fallible `for` loop over `0 .. n-1` fails when its body fails at some index below `n`. -/
theorem foldlM_range_none (step : List CRGB → Nat → Option (List CRGB)) (i : Nat)
    (hfail : ∀ leds, step leds i = none) (n : Nat) (hi : i < n) (leds : List CRGB) :
    (List.range n).foldlM step leds = none := by
  induction n with
  | zero => exact absurd hi (Nat.not_lt_zero _)
  | succ n ih =>
    rw [List.range_succ, List.foldlM_append]
    cases hmid : (List.range n).foldlM step leds with
    | none => rfl
    | some mid =>
      have hin : i = n := by
        by_contra hne
        have := ih (by omega)
        rw [hmid] at this
        exact absurd this (by simp)
      subst hin
      simp [hfail mid]


/-! ## Properties of the spiral line drawer, the radius proxy and the coordinate maps -/

/-- C11: on every spiral board, `drawSpiralLine(angle, NUM_PIXELS, color)` returns after a single
test of the walk condition, and its only effect is one additive write of `color` to one pixel
(physical index 0); every other pixel is unchanged. -/
theorem drawSpiralLine_full_stride (B : SpiralBoard) (hB : B ∈ spiralBoards) (angle : U8)
    (color : CRGB) (leds : List CRGB) (fuel : Nat) :
    0 < B.NUM_PIXELS ∧
    drawSpiralLine B angle B.NUM_PIXELS color leds (fuel + 1) =
      some (List.modify (fun c => c.add color) 0 leds) ∧
    ∀ j : Nat, (List.modify (fun c => c.add color) 0 leds)[j]? =
      if j = 0 then (leds[j]?).map (fun c => c.add color) else leds[j]? := by
  obtain ⟨hpos, hN⟩ := spiralBoards_bounds B hB
  have hlt := physicalToFibonacci_getD_lt B hB
  refine ⟨hpos, ?_, fun j => getElem?_modify_eq_map leds 0 j _⟩
  have hsearch : drawSpiralLine.search B angle B.NUM_PIXELS = (0, 255) :=
    search_eq_init_of_lt B angle _ (fun i => by have := hlt i; omega)
  unfold drawSpiralLine
  rw [hsearch]
  unfold drawSpiralLine.walk
  have h0 := hlt 0
  have hc : ¬ (toInt32 ((B.physicalToFibonacci.getD 0 0 : Int) - B.NUM_PIXELS) ≥ 0 ∧
      toInt32 ((B.physicalToFibonacci.getD 0 0 : Int) - B.NUM_PIXELS) < B.NUM_PIXELS) := by
    simp only [toInt32]
    omega
  simp only [hc, if_false]

theorem drawSpiralLine_full_stride_witness :
    fibonacci32 ∈ spiralBoards ∧
    drawSpiralLine fibonacci32 77 fibonacci32.NUM_PIXELS color4 (blackLeds 34) (0 + 1) =
      some (List.modify (fun c => c.add color4) 0 (blackLeds 34)) :=
  ⟨by simp [spiralBoards],
   (drawSpiralLine_full_stride fibonacci32 (by simp [spiralBoards]) 77 color4 (blackLeds 34) 0).2.1⟩

/-- C12: on FIBONACCI32 with angle 0 and step 13 the start pixel is 33, of rank 21; the call
adds the color twice to pixel 33 and never to pixel 32, the pixel of the inward rank 21 - 13. -/
theorem drawSpiralLine_start_twice_inner_missed :
    (drawSpiralLine.search fibonacci32 0 13).1 = 33 ∧
    fibonacci32.physicalToFibonacci.getD 33 0 = 21 ∧
    fibonacci32.fibonacciToPhysical.getD (21 - 13) 0 = 32 ∧
    drawSpiralLine fibonacci32 0 13 ⟨0, 0, 2⟩ (blackLeds 34) 34 =
      some (List.modify (fun c => c.add ⟨0, 0, 2⟩) 33
        (List.modify (fun c => c.add ⟨0, 0, 2⟩) 33 (blackLeds 34))) ∧
    (drawSpiralLine fibonacci32 0 13 ⟨0, 0, 2⟩ (blackLeds 34) 34).map
      (fun out => (out[33]?, out[32]?)) = some (some ⟨0, 0, 4⟩, some ⟨0, 0, 0⟩) := by
  decide

/-- C13: on FIBONACCI64 with angle 0 and step 13 candidates exist (pixel 4 is one), yet the start
pixel is physical index 0, of rank 0, which is not a candidate. -/
theorem drawSpiralLine_start_not_candidate :
    Candidate fibonacci64 13 4 ∧
    (drawSpiralLine.search fibonacci64 0 13).1 = 0 ∧
    ¬ Candidate fibonacci64 13 0 := by
  decide

/-- C14: on FIBONACCI64 with angle 17 and step 13 the candidate pixel 53 has angle 17 exactly,
yet the start pixel is 54, whose angle is 2. -/
theorem drawSpiralLine_exact_match_overridden :
    Candidate fibonacci64 13 53 ∧ fibonacci64.angles.getD 53 0 = 17 ∧
    (drawSpiralLine.search fibonacci64 17 13).1 = 54 ∧
    fibonacci64.angles.getD 54 0 = 2 := by
  decide

/-- C15: on FIBONACCI64 with angle 0 and step 13 no candidate has angle 0 and candidate 63
(angle 237) has the least forward difference `(0 - 237) mod 256 = 19`, yet the start pixel is
physical index 0, which is not a candidate. -/
theorem drawSpiralLine_no_wraparound :
    (∀ i : Nat, i < 64 → Candidate fibonacci64 13 i → fibonacci64.angles.getD i 0 ≠ 0) ∧
    Candidate fibonacci64 13 63 ∧
    (∀ i : Nat, i < 64 → Candidate fibonacci64 13 i →
      ((0 : Int) - (fibonacci64.angles.getD 63 0 : Nat)) % 256 ≤
        ((0 : Int) - (fibonacci64.angles.getD i 0 : Nat)) % 256) ∧
    ((0 : Int) - (fibonacci64.angles.getD 63 0 : Nat)) % 256 = 19 ∧
    (drawSpiralLine.search fibonacci64 0 13).1 = 0 ∧
    ¬ Candidate fibonacci64 13 0 := by
  decide


/-- C16 fails as stated: on FIBONACCI32 with `step = 0` no amount of fuel lets `drawSpiralLine`
return, the inward walk repeats forever at the start rank. -/
theorem drawSpiralLine_step_zero_diverges :
    ¬ ∃ fuel : Nat, (drawSpiralLine fibonacci32 0 0 color4 (blackLeds 34) fuel).isSome = true := by
  rintro ⟨fuel, h⟩
  have hB : fibonacci32 ∈ spiralBoards := by simp [spiralBoards]
  have hlt := physicalToFibonacci_getD_lt fibonacci32 hB
    (drawSpiralLine.search fibonacci32 0 0).1
  have hnone := walk_zero_step fibonacci32 (spiralBoards_bounds _ hB).2 color4 fuel
    (fibonacci32.physicalToFibonacci.getD (drawSpiralLine.search fibonacci32 0 0).1 0 : Nat)
    (List.modify (fun c => c.add color4) (drawSpiralLine.search fibonacci32 0 0).1 (blackLeds 34))
    (by omega) (by omega)
  unfold drawSpiralLine at h
  rw [hnone] at h
  exact absurd h (by simp)

/-- C16, amended: on every spiral board, for every angle, color and buffer and every `int`
value of `step` other than 0 (negative values included), `drawSpiralLine` terminates: the
start search is a bounded scan and the inward walk returns within `NUM_PIXELS + 1` tests of
its condition. -/
theorem drawSpiralLine_terminates (B : SpiralBoard) (hB : B ∈ spiralBoards) (angle : U8)
    (step : Int) (color : CRGB) (leds : List CRGB) (h0 : step ≠ 0)
    (hlo : -2147483648 ≤ step) (hhi : step ≤ 2147483647) :
    ∃ out, drawSpiralLine B angle step color leds (B.NUM_PIXELS + 1) = some out := by
  obtain ⟨_, hN⟩ := spiralBoards_bounds B hB
  have hlt := physicalToFibonacci_getD_lt B hB (drawSpiralLine.search B angle step).1
  unfold drawSpiralLine
  apply walk_isSome B hN step color h0 hlo hhi
  · omega
  · omega
  · intro _; omega
  · intro _; omega

theorem drawSpiralLine_terminates_witness :
    fibonacci32 ∈ spiralBoards ∧ (-3 : Int) ≠ 0 ∧
    ∃ out, drawSpiralLine fibonacci32 0 (-3) color4 (blackLeds 34) (fibonacci32.NUM_PIXELS + 1)
      = some out :=
  ⟨by simp [spiralBoards], by decide,
   drawSpiralLine_terminates fibonacci32 (by simp [spiralBoards]) 0 (-3) color4 (blackLeds 34)
     (by decide) (by decide) (by decide)⟩

/-- C17: on FIBONACCI512 pixel 263 has rank 255 and pixel 68 has rank 256, but the radius proxy
the selectors read is 255 for pixel 263 and 0 for pixel 68. -/
theorem radius_proxy_not_monotone_512 :
    FIBONACCI512.physicalToFibonacci.getD 263 0 = 255 ∧
    FIBONACCI512.physicalToFibonacci.getD 68 0 = 256 ∧
    (FIBONACCI512.layout.ro 263).val = 255 ∧ (FIBONACCI512.layout.ro 68).val = 0 ∧
    ¬ (FIBONACCI512.layout.ro 263 ≤ FIBONACCI512.layout.ro 68) := by
  decide

/-- C18: on FIBONACCI32 (34 pixels, multiplier 8, divisor 1) pixel 24 has rank 32, its rescaled
radius `32 * 8 / 1` is 256, and the `uint8_t` value `r` of `radiusPalette` is 0. -/
theorem radiusPalette_r_wraps_32 :
    (RADII_SCALE_MULTIPLIER FIBONACCI32.NUM_PIXELS).val = 8 ∧
    (RADII_SCALE_DIVISOR FIBONACCI32.NUM_PIXELS).val = 1 ∧
    FIBONACCI32.layout.radiusProxy.getD 24 0 = 32 ∧
    FIBONACCI32.layout.radiusProxy.getD 24 0 * (RADII_SCALE_MULTIPLIER FIBONACCI32.NUM_PIXELS).val /
      (RADII_SCALE_DIVISOR FIBONACCI32.NUM_PIXELS).val = 256 ∧
    radiusPalette_r FIBONACCI32.layout (RADII_SCALE_MULTIPLIER FIBONACCI32.NUM_PIXELS)
      (RADII_SCALE_DIVISOR FIBONACCI32.NUM_PIXELS) 24 = 0 := by
  decide

/-- C19: on each of the six boards with a coordinate map, `coordsX` and `coordsY` hold values in
`0 .. 255` only, and each of them contains both 0 and 255. -/
theorem coords_fill_range (XY : List Nat × List Nat) (h : XY ∈ coordinateMaps) :
    (0 ∈ XY.1 ∧ 255 ∈ XY.1 ∧ 0 ∈ XY.2 ∧ 255 ∈ XY.2) ∧
    (∀ v, v ∈ XY.1 → v ≤ 255) ∧ (∀ v, v ∈ XY.2 → v ≤ 255) := by
  have hall : ∀ XY ∈ coordinateMaps,
      (0 ∈ XY.1 ∧ 255 ∈ XY.1 ∧ 0 ∈ XY.2 ∧ 255 ∈ XY.2) ∧
      (∀ v, v ∈ XY.1 → v ≤ 255) ∧ (∀ v, v ∈ XY.2 → v ≤ 255) := by
    decide!
  exact hall XY h

theorem coords_fill_range_witness :
    (KRAKEN64.coordsX, KRAKEN64.coordsY) ∈ coordinateMaps ∧
    (0 ∈ KRAKEN64.coordsX ∧ 255 ∈ KRAKEN64.coordsX ∧ 0 ∈ KRAKEN64.coordsY ∧
      255 ∈ KRAKEN64.coordsY) :=
  ⟨by simp [coordinateMaps],
   (coords_fill_range (KRAKEN64.coordsX, KRAKEN64.coordsY) (by simp [coordinateMaps])).1⟩

/-- C20 fails as stated: on the four-pixel layout with target angle 0 and tolerance 0, pixel 0 is
matched, the divisor `dAngle - 0` of `map` is zero there, and `antialiasPixelAR` has no result. -/
theorem antialiasPixelAR_zero_tolerance_fails :
    Selected layout4 0 0 0 3 0 ∧ ((0 : U8).val : Int) - 0 = 0 ∧
    map 0 0 (0 : U8).val 0 255 = none ∧
    antialiasPixelAR layout4 0 0 0 3 color4 leds4 layout4.NUM_PIXELS = none := by
  decide

/-- C20, amended: `antialiasPixelAR` fails exactly when the tolerance `dAngle` is 0 and some
pixel is matched; in particular for every `dAngle >= 1` the divisor of `map` is non-zero at
every evaluation and the call returns a buffer. -/
theorem antialiasPixelAR_fails_iff (L : Layout) (angle dAngle startRadius endRadius : U8)
    (color : CRGB) (leds : List CRGB) :
    (antialiasPixelAR L angle dAngle startRadius endRadius color leds L.NUM_PIXELS = none ↔
      dAngle.val = 0 ∧ ∃ i, i < L.NUM_PIXELS ∧ Selected L angle dAngle startRadius endRadius i) ∧
    (1 ≤ dAngle.val →
      (∀ x : Nat, ∃ m, map x 0 dAngle.val 0 255 = some m) ∧
      ∃ out, antialiasPixelAR L angle dAngle startRadius endRadius color leds L.NUM_PIXELS
        = some out) := by
  constructor
  · constructor
    · intro hnone
      by_contra hcon
      obtain ⟨out, hout⟩ := antialiasPixelAR_isSome L angle dAngle startRadius endRadius color
        leds L.NUM_PIXELS (fun i hi hs hd => hcon ⟨hd, i, by simpa using hi, hs⟩)
      rw [hnone] at hout
      exact absurd hout (by simp)
    · rintro ⟨hd, i, hi, hs⟩
      unfold antialiasPixelAR
      apply foldlM_range_none _ i _ _ (by simpa using hi)
      intro leds
      have hc := (code_test_iff L angle dAngle startRadius endRadius i).mpr hs
      have hz : (min (sub8 (L.ao i) angle) (sub8 angle (L.ao i))).val = 0 := by
        have := hc.2
        rw [Fin.le_def] at this
        omega
      simp only [hc.1, hc.2, if_true, and_self, hz, hd, map]
      rfl
  · intro hd
    have hne : dAngle.val ≠ 0 := by omega
    exact ⟨fun x => ⟨_, map_eq_some x _ hne⟩,
      antialiasPixelAR_isSome L angle dAngle startRadius endRadius color leds L.NUM_PIXELS
        (fun _ _ _ => hne)⟩

theorem antialiasPixelAR_fails_iff_witness :
    1 ≤ (64 : U8).val ∧
    ∃ out, antialiasPixelAR layout4 0 64 0 3 color4 leds4 layout4.NUM_PIXELS = some out :=
  ⟨by decide, ((antialiasPixelAR_fails_iff layout4 0 64 0 3 color4 leds4).2 (by decide)).2⟩


/-! ## Further lemmas on the line drawer and the additive selectors -/

theorem foldl_range_invariant {σ : Type} (P : σ → Prop) (f : σ → Nat → σ) (n : Nat) (init : σ)
    (h0 : P init) (hstep : ∀ st i, i < n → P st → P (f st i)) :
    P ((List.range n).foldl f init) := by
  induction n with
  | zero => exact h0
  | succ n ih =>
    rw [List.range_succ, List.foldl_append, List.foldl_cons, List.foldl_nil]
    exact hstep _ n (Nat.lt_succ_self n)
      (ih (fun st i hi hp => hstep st i (Nat.lt_succ_of_lt hi) hp))

/-- The start index found by the search is a physical index of the board. -/
theorem search_fst_lt (B : SpiralBoard) (hpos : 0 < B.NUM_PIXELS) (angle : U8) (step : Int) :
    (drawSpiralLine.search B angle step).1 < B.NUM_PIXELS := by
  unfold drawSpiralLine.search
  apply foldl_range_invariant (fun st : Nat × Int => st.1 < B.NUM_PIXELS)
  · exact hpos
  · intro st i hi hst
    dsimp only
    split_ifs <;> first | exact hst | exact hi

/-- Every read of `fibonacciToPhysical` at a rank of the board gives a physical index. -/
theorem fibonacciToPhysical_getD_lt (B : SpiralBoard) (hB : B ∈ spiralBoards) (k : Nat)
    (hk : k < B.NUM_PIXELS) : B.fibonacciToPhysical.getD k 0 < B.NUM_PIXELS := by
  have hall := inverseTables_spiralBoards
  rw [List.all_eq_true] at hall
  obtain ⟨_, _, h3⟩ := inverseTables_sound _ _ _ _ (hall B hB)
  exact (h3 k hk).2.1

/-- Every rank at which the loop body runs lies inside the board. -/
theorem ranks_mem_bounds (B : SpiralBoard) (step : Int) (fuel : Nat) :
    ∀ f0 : Int, 0 ≤ f0 → f0 < B.NUM_PIXELS →
      ∀ f, f ∈ drawSpiralLine.ranks B step fuel f0 → 0 ≤ f ∧ f < B.NUM_PIXELS := by
  induction fuel with
  | zero => intro f0 _ _ f hf; simp [drawSpiralLine.ranks] at hf
  | succ fuel ih =>
    intro f0 h0 hN f hf
    unfold drawSpiralLine.ranks at hf
    split_ifs at hf with hc
    · rcases List.mem_cons.mp hf with rfl | hf
      · exact ⟨h0, hN⟩
      · exact ih _ hc.1 hc.2 f hf
    · simp at hf

/-- When the walk returns, its effect is the additive writes along the ranks it visited. -/
theorem walk_eq_applyWrites (B : SpiralBoard) (step : Int) (color : CRGB) (fuel : Nat) :
    ∀ (f : Int) (leds out : List CRGB), drawSpiralLine.walk B step color fuel f leds = some out →
      out = applyWrites color
        ((drawSpiralLine.ranks B step fuel f).map (fun r => B.fibonacciToPhysical.getD r.toNat 0))
        leds := by
  induction fuel with
  | zero => intro f leds out h; simp [drawSpiralLine.walk] at h
  | succ fuel ih =>
    intro f leds out h
    unfold drawSpiralLine.walk at h
    unfold drawSpiralLine.ranks
    split_ifs at h ⊢ with hc
    · rw [ih _ _ _ h]
      rfl
    · simp only [Option.some.injEq] at h
      rw [← h]
      rfl


/-- With a positive `step`, a walk from rank `f` with `m * step <= f < (m + 1) * step` runs its
body at the ranks `f, f - step, ..., f - (m - 1) * step`. -/
theorem ranks_eq_of_pos (B : SpiralBoard) (hN : B.NUM_PIXELS ≤ 512) (step : Int)
    (hs : 0 < step) (hhi : step ≤ 2147483647) (m : Nat) :
    ∀ (f : Int) (fuel : Nat), (m : Int) * step ≤ f → f < ((m : Int) + 1) * step →
      f < B.NUM_PIXELS → m < fuel →
      drawSpiralLine.ranks B step fuel f = (List.range m).map (fun k : Nat => f - (k : Int) * step) := by
  induction m with
  | zero =>
    intro f fuel h1 h2 hN' hfuel
    obtain ⟨fuel, rfl⟩ := Nat.exists_eq_succ_of_ne_zero (by omega : fuel ≠ 0)
    unfold drawSpiralLine.ranks
    have hc : ¬ (toInt32 (f - step) ≥ 0 ∧ toInt32 (f - step) < B.NUM_PIXELS) := by
      simp only [toInt32]
      simp only [Nat.cast_zero, zero_mul, zero_add, one_mul] at h1 h2
      omega
    rw [if_neg hc]
    rfl
  | succ m ih =>
    intro f fuel h1 h2 hN' hfuel
    obtain ⟨fuel, rfl⟩ := Nat.exists_eq_succ_of_ne_zero (by omega : fuel ≠ 0)
    unfold drawSpiralLine.ranks
    have hm : (0 : Int) ≤ (m : Int) * step := Int.mul_nonneg (Int.ofNat_nonneg m) (le_of_lt hs)
    have e1 : ((m + 1 : Nat) : Int) * step = (m : Int) * step + step := by push_cast; ring
    have e2 : (((m + 1 : Nat) : Int) + 1) * step = (m : Int) * step + step + step := by
      push_cast; ring
    have e3 : ((m : Int) + 1) * step = (m : Int) * step + step := by ring
    rw [e1] at h1
    rw [e2] at h2
    have ht : toInt32 (f - step) = f - step := by
      simp only [toInt32]
      omega
    have hc : toInt32 (f - step) ≥ 0 ∧ toInt32 (f - step) < B.NUM_PIXELS := by
      rw [ht]
      omega
    rw [if_pos hc, ht, ih (f - step) fuel (by omega) (by rw [e3]; omega) (by omega) (by omega)]
    rw [List.range_succ_eq_map, List.map_cons, List.map_map]
    congr 1
    · simp
    · apply List.map_congr_left
      intro k _
      simp only [Function.comp, Nat.cast_succ]
      ring

theorem getElem?_applyWrites_of_not_mem (color : CRGB) (ws : List Nat) (j : Nat) (hj : j ∉ ws) :
    ∀ leds : List CRGB, (applyWrites color ws leds)[j]? = leds[j]? := by
  induction ws with
  | nil => intro leds; rfl
  | cons w ws ih =>
    intro leds
    have hw : j ≠ w := fun e => hj (e ▸ List.mem_cons_self _ _)
    have hws : j ∉ ws := fun h => hj (List.mem_cons_of_mem _ h)
    unfold applyWrites
    rw [List.foldl_cons]
    have := ih hws (List.modify (fun c => c.add color) w leds)
    unfold applyWrites at this
    rw [this, getElem?_modify_eq_map, if_neg hw]

theorem getElem?_applyWrites_twice (color : CRGB) (s : Nat) (ws : List Nat) (hs : s ∉ ws)
    (leds : List CRGB) :
    (applyWrites color (s :: s :: ws) leds)[s]? = (leds[s]?).map (fun old => old.addTwice color) := by
  have h := getElem?_applyWrites_of_not_mem color ws s hs
    (List.modify (fun c => c.add color) s (List.modify (fun c => c.add color) s leds))
  unfold applyWrites at h ⊢
  rw [List.foldl_cons, List.foldl_cons, h, getElem?_modify_eq_map, if_pos rfl,
    getElem?_modify_eq_map, if_pos rfl]
  cases leds[s]? with
  | none => rfl
  | some old => simp only [Option.map_some', CRGB.add_add]

/-- On a spiral board `fibonacciToPhysical` takes distinct ranks to distinct pixels. -/
theorem fibonacciToPhysical_injective (B : SpiralBoard) (hB : B ∈ spiralBoards) (k₁ k₂ : Nat)
    (h1 : k₁ < B.NUM_PIXELS) (h2 : k₂ < B.NUM_PIXELS)
    (h : B.fibonacciToPhysical.getD k₁ 0 = B.fibonacciToPhysical.getD k₂ 0) : k₁ = k₂ := by
  have hall := inverseTables_spiralBoards
  rw [List.all_eq_true] at hall
  obtain ⟨_, _, h3⟩ := inverseTables_sound _ _ _ _ (hall B hB)
  have e1 := (h3 k₁ h1).2.2.2
  have e2 := (h3 k₂ h2).2.2.2
  rw [h] at e1
  omega

/-- On a spiral board `fibonacciToPhysical[physicalToFibonacci[p]] = p`. -/
theorem fibonacciToPhysical_physicalToFibonacci (B : SpiralBoard) (hB : B ∈ spiralBoards)
    (p : Nat) (hp : p < B.NUM_PIXELS) :
    B.fibonacciToPhysical.getD (B.physicalToFibonacci.getD p 0) 0 = p := by
  have hall := inverseTables_spiralBoards
  rw [List.all_eq_true] at hall
  obtain ⟨_, _, h3⟩ := inverseTables_sound _ _ _ _ (hall B hB)
  exact (h3 p hp).2.2.1


/-- The walk returns as soon as the fuel exceeds the number of ranks visited. -/
theorem walk_of_ranks_length_lt (B : SpiralBoard) (step : Int) (color : CRGB) (fuel : Nat) :
    ∀ (f : Int) (leds : List CRGB), (drawSpiralLine.ranks B step fuel f).length < fuel →
      drawSpiralLine.walk B step color fuel f leds = some (applyWrites color
        ((drawSpiralLine.ranks B step fuel f).map (fun r => B.fibonacciToPhysical.getD r.toNat 0))
        leds) := by
  induction fuel with
  | zero => intro f leds h; exact absurd h (Nat.not_lt_zero _)
  | succ fuel ih =>
    intro f leds h
    unfold drawSpiralLine.walk
    unfold drawSpiralLine.ranks at h ⊢
    split_ifs at h ⊢ with hc
    · rw [List.length_cons] at h
      rw [ih _ _ (by omega)]
      rfl
    · rfl

/-- For a positive stride the write list of the walk is the tail of `inwardWrites`. -/
theorem ranks_map_eq (B : SpiralBoard) (hN : B.NUM_PIXELS ≤ 512) (n f0 : Nat) (hn : 1 ≤ n)
    (hhi : (n : Int) ≤ 2147483647) (hf : f0 < B.NUM_PIXELS) (fuel : Nat) (hfuel : f0 / n < fuel) :
    drawSpiralLine.ranks B n fuel f0 = (List.range (f0 / n)).map (fun k : Nat => (f0 : Int) - k * n) ∧
    (drawSpiralLine.ranks B n fuel f0).map (fun r => B.fibonacciToPhysical.getD r.toNat 0) =
      (List.range (f0 / n)).map (fun k => B.fibonacciToPhysical.getD (f0 - k * n) 0) := by
  have hpos : 0 < n := by omega
  have hle : f0 / n * n ≤ f0 := Nat.div_mul_le_self f0 n
  have hlt : f0 < (f0 / n + 1) * n :=
    (Nat.div_lt_iff_lt_mul hpos).mp (Nat.lt_succ_self _)
  have hr := ranks_eq_of_pos B hN n (by omega) hhi (f0 / n) f0 fuel
    (by exact_mod_cast hle) (by exact_mod_cast hlt) (by exact_mod_cast hf) hfuel
  refine ⟨hr, ?_⟩
  rw [hr, List.map_map]
  apply List.map_congr_left
  intro k hk
  have hk' : k < f0 / n := List.mem_range.mp hk
  have hkn : k * n ≤ f0 / n * n := Nat.mul_le_mul_right n (Nat.le_of_lt hk')
  have e : ((k * n : Nat) : Int) = (k : Int) * (n : Int) := by push_cast; rfl
  simp only [Function.comp]
  rw [← e]
  congr 1
  omega


/-- Shape of `inwardWrites` when the start rank is at least the stride: the start pixel occurs as
its first two entries and nowhere else, and the pixel of the innermost rank does not occur. -/
theorem inwardWrites_shape (B : SpiralBoard) (hB : B ∈ spiralBoards) (s n : Nat)
    (hs : s < B.NUM_PIXELS) (hn : 1 ≤ n) (hge : n ≤ B.physicalToFibonacci.getD s 0) :
    ∃ rest, inwardWrites B s n = s :: s :: rest ∧ s ∉ rest ∧
      B.fibonacciToPhysical.getD
        (B.physicalToFibonacci.getD s 0 - B.physicalToFibonacci.getD s 0 / n * n) 0 ∉
        s :: s :: rest := by
  have hf := physicalToFibonacci_getD_lt B hB s
  have hinv := fibonacciToPhysical_physicalToFibonacci B hB s hs
  generalize hf0 : B.physicalToFibonacci.getD s 0 = f0 at hf hinv hge ⊢
  have hpos : 0 < n := by omega
  have hm : 1 ≤ f0 / n := Nat.div_pos hge hpos
  have hle : f0 / n * n ≤ f0 := Nat.div_mul_le_self f0 n
  obtain ⟨m', hm'⟩ : ∃ m', f0 / n = m' + 1 := ⟨f0 / n - 1, by omega⟩
  have hmul : (m' + 1) * n = m' * n + n := by ring
  refine ⟨(List.range m').map (fun k => B.fibonacciToPhysical.getD (f0 - (k + 1) * n) 0), ?_, ?_, ?_⟩
  · unfold inwardWrites
    rw [hf0, hm', List.range_succ_eq_map, List.map_cons, List.map_map]
    simp only [Nat.zero_mul, Nat.sub_zero, hinv]
    rfl
  · intro hmem
    obtain ⟨k, hk, hk2⟩ := List.mem_map.mp hmem
    have hk' : k < m' := List.mem_range.mp hk
    have hkn : (k + 1) * n ≤ m' * n := Nat.mul_le_mul_right n hk'
    have hk1 : 1 ≤ (k + 1) * n := Nat.mul_pos (Nat.succ_pos k) hpos
    rw [hm', hmul] at hle
    have := fibonacciToPhysical_injective B hB (f0 - (k + 1) * n) f0 (by omega) hf
      (by rw [hk2, hinv])
    omega
  · rw [hm', hmul] at hle
    have hmn : 1 ≤ m' * n + n := by omega
    intro hmem
    rw [hm', hmul] at hmem
    rcases List.mem_cons.mp hmem with h | hmem
    · have := fibonacciToPhysical_injective B hB (f0 - (m' * n + n)) f0 (by omega) hf
        (by rw [h, hinv])
      omega
    rcases List.mem_cons.mp hmem with h | hmem
    · have := fibonacciToPhysical_injective B hB (f0 - (m' * n + n)) f0 (by omega) hf
        (by rw [h, hinv])
      omega
    · obtain ⟨k, hk, hk2⟩ := List.mem_map.mp hmem
      have hk' : k < m' := List.mem_range.mp hk
      have hkn : (k + 1) * n ≤ m' * n := Nat.mul_le_mul_right n hk'
      have := fibonacciToPhysical_injective B hB (f0 - (k + 1) * n) (f0 - (m' * n + n))
        (by omega) (by omega) hk2
      omega


/-- Pointwise description of a `for` loop over `0 .. n-1` that assigns `c i` to pixel `i`. -/
theorem foldl_range_set_getElem? (c : Nat → CRGB) (n : Nat) (leds : List CRGB) (j : Nat) :
    ((List.range n).foldl (fun leds i => leds.set i (c i)) leds)[j]? =
      if j < n then (leds[j]?).map (fun _ => c j) else leds[j]? := by
  have h := foldl_range_getElem? (fun leds i => leds.set i (c i)) (fun _ => True)
    (fun i _ => c i) (fun leds i k => by
      rw [getElem?_set_eq_map]
      simp) n leds j
  rw [h]
  simp

theorem intToU8_sub_toU8 (p : U8) (x : Nat) :
    intToU8 ((p.val : Int) - ((toU8 x).val : Int) * 1) = intToU8 ((p.val : Int) - (x : Int)) := by
  simp only [intToU8, toU8, Fin.mk.injEq]
  omega

theorem intToU8_sub_toU8_add (p : U8) (x y : Nat) :
    intToU8 ((p.val : Int) - (((toU8 x).val : Int) + ((toU8 y).val : Int)) * 1) =
      intToU8 ((p.val : Int) - ((x : Int) + (y : Int))) := by
  simp only [intToU8, toU8, Fin.mk.injEq]
  omega


/-- Every entry of `angles` on a spiral board fits in 8 bits. -/
theorem angles_getD_lt (B : SpiralBoard) (hB : B ∈ spiralBoards) (i : Nat) :
    B.angles.getD i 0 < 256 := by
  have hall : ∀ B ∈ spiralBoards, ∀ v ∈ B.angles, v < 256 := by decide!
  by_cases hi : i < B.angles.length
  · rw [List.getD_eq_getElem _ _ hi]
    exact hall B hB _ (List.getElem_mem _)
  · rw [List.getD_eq_default _ _ (by omega)]
    decide

/-- The test the start search makes on pixel `i` is the candidate predicate. -/
theorem search_test_iff (B : SpiralBoard) (hN : B.NUM_PIXELS ≤ 512) (step : Int)
    (hlo : -2147483648 ≤ step) (i : Nat) (hi : i < B.NUM_PIXELS)
    (hj : B.physicalToFibonacci.getD i 0 < B.NUM_PIXELS) :
    (¬ ((B.physicalToFibonacci.getD i 0 : Int) < step) ∧
      toInt32 ((B.physicalToFibonacci.getD i 0 : Int) + step) ≥ B.NUM_PIXELS) ↔
    Candidate B step i := by
  simp only [Candidate, toInt32]
  omega

/-- The start search keeps index 0 when every candidate has an angle above the target. -/
theorem search_eq_init_of_above (B : SpiralBoard) (hB : B ∈ spiralBoards) (angle : U8)
    (step : Int) (hlo : -2147483648 ≤ step)
    (h : ∀ i, Candidate B step i → angle.val < B.angles.getD i 0) :
    drawSpiralLine.search B angle step = (0, 255) := by
  obtain ⟨_, hN⟩ := spiralBoards_bounds B hB
  unfold drawSpiralLine.search
  apply foldl_eq_init_of_fixed
  intro i hi
  have hi' : i < B.NUM_PIXELS := List.mem_range.mp hi
  have hiff := search_test_iff B hN step hlo i hi' (physicalToFibonacci_getD_lt B hB i)
  have ha := angles_getD_lt B hB i
  by_cases h1 : (B.physicalToFibonacci.getD i 0 : Int) < step
  · simp only [h1, if_true]
  · by_cases h2 : toInt32 ((B.physicalToFibonacci.getD i 0 : Int) + step) ≥ B.NUM_PIXELS
    · have hab := h i (hiff.mp ⟨h1, h2⟩)
      have hne : ¬ (toU8 (B.angles.getD i 0) = angle) := by
        intro e
        have := congrArg Fin.val e
        simp only [toU8] at this
        omega
      have hdiff : ¬ ((angle.val : Int) - ((toU8 (B.angles.getD i 0)).val : Int) > 0 ∧
          (angle.val : Int) - ((toU8 (B.angles.getD i 0)).val : Int) < 255) := by
        simp only [toU8]
        omega
      simp only [h1, h2, hne, hdiff, if_true, if_false, not_true_eq_false, not_false_eq_true]
    · simp only [h1, h2, if_true, if_false, not_false_eq_true]


theorem CRGB.add_right_comm (p a b : CRGB) : (p.add a).add b = (p.add b).add a := by
  simp only [CRGB.add, qadd8, CRGB.mk.injEq, Fin.mk.injEq]
  omega

/-- Whether `antialiasPixelAR` fails does not depend on the buffer: it fails exactly when the
tolerance is 0 and some pixel is matched. -/
theorem antialiasPixelAR_eq_none_iff (L : Layout) (angle dAngle startRadius endRadius : U8)
    (color : CRGB) (leds : List CRGB) :
    antialiasPixelAR L angle dAngle startRadius endRadius color leds L.NUM_PIXELS = none ↔
      dAngle.val = 0 ∧ ∃ i, i < L.NUM_PIXELS ∧ Selected L angle dAngle startRadius endRadius i := by
  constructor
  · intro hnone
    by_contra hcon
    obtain ⟨out, hout⟩ := antialiasPixelAR_isSome L angle dAngle startRadius endRadius color
      leds L.NUM_PIXELS (fun i hi hs hd => hcon ⟨hd, i, by simpa using hi, hs⟩)
    rw [hnone] at hout
    exact absurd hout (by simp)
  · rintro ⟨hd, i, hi, hs⟩
    unfold antialiasPixelAR
    apply foldlM_range_none _ i _ _ (by simpa using hi)
    intro leds
    have hc := (code_test_iff L angle dAngle startRadius endRadius i).mpr hs
    have hz : (min (sub8 (L.ao i) angle) (sub8 angle (L.ao i))).val = 0 := by
      have := hc.2
      rw [Fin.le_def] at this
      omega
    simp only [hc.1, hc.2, if_true, and_self, hz, hd, map]
    rfl

/-- With a tolerance of at least 128 the selection predicate is the radius band alone. -/
theorem selected_iff_band_of_ge_128 (L : Layout) (angle dAngle startRadius endRadius : U8)
    (hd : 128 ≤ dAngle.val) (i : Nat) :
    Selected L angle dAngle startRadius endRadius i ↔
      (startRadius.val ≤ (L.ro i).val ∧ (L.ro i).val ≤ endRadius.val) := by
  have ha := angle.isLt
  simp only [Selected, circularDistance]
  omega


/-- Two conditional updates of one pixel commute when the updates do. -/
theorem ite_map_comm (P Q : Prop) [Decidable P] [Decidable Q] (f g : CRGB → CRGB)
    (hfg : ∀ p, g (f p) = f (g p)) (o : Option CRGB) :
    (if Q then (if P then o.map f else o).map g else (if P then o.map f else o)) =
      (if P then (if Q then o.map g else o).map f else (if Q then o.map g else o)) := by
  by_cases hP : P <;> by_cases hQ : Q
  · rw [if_pos hP, if_pos hQ, if_pos hP, if_pos hQ]
    cases o with
    | none => rfl
    | some p => simp only [Option.map_some', hfg]
  · rw [if_pos hP, if_neg hQ, if_pos hP, if_neg hQ]
  · simp only [if_neg hP, if_pos hQ]
  · simp only [if_neg hP, if_neg hQ]

/-! ## Index safety, clock radii, palette effects and further properties -/

/-- C21: on every spiral board, for every angle and every value of `step`, each index
`drawSpiralLine` uses lies in `[0, NUM_PIXELS)`: the loop indices `i` of the search, the start
index (read of `physicalToFibonacci`, write of the buffer), every rank `f` at which the walk
reads `fibonacciToPhysical`, and the pixel `fibonacciToPhysical[f]` it writes. -/
theorem drawSpiralLine_indices_in_range (B : SpiralBoard) (hB : B ∈ spiralBoards) (angle : U8)
    (step : Int) :
    (∀ i, i ∈ List.range B.NUM_PIXELS → i < B.NUM_PIXELS) ∧
    (drawSpiralLine.search B angle step).1 < B.NUM_PIXELS ∧
    B.physicalToFibonacci.getD (drawSpiralLine.search B angle step).1 0 < B.NUM_PIXELS ∧
    ∀ (fuel : Nat) (f : Int),
      f ∈ drawSpiralLine.ranks B step fuel
        (B.physicalToFibonacci.getD (drawSpiralLine.search B angle step).1 0 : Nat) →
      0 ≤ f ∧ f < B.NUM_PIXELS ∧ B.fibonacciToPhysical.getD f.toNat 0 < B.NUM_PIXELS := by
  obtain ⟨hpos, _⟩ := spiralBoards_bounds B hB
  have hf0 := physicalToFibonacci_getD_lt B hB (drawSpiralLine.search B angle step).1
  refine ⟨fun i hi => List.mem_range.mp hi, search_fst_lt B hpos angle step, hf0, ?_⟩
  intro fuel f hf
  obtain ⟨h0, hN⟩ := ranks_mem_bounds B step fuel _ (by omega) (by exact_mod_cast hf0) f hf
  exact ⟨h0, hN, fibonacciToPhysical_getD_lt B hB f.toNat (by omega)⟩

theorem drawSpiralLine_indices_in_range_witness :
    fibonacci32 ∈ spiralBoards ∧ (drawSpiralLine.search fibonacci32 0 13).1 < fibonacci32.NUM_PIXELS :=
  ⟨by simp [spiralBoards],
   (drawSpiralLine_indices_in_range fibonacci32 (by simp [spiralBoards]) 0 13).2.1⟩

/-- C22: on FIBONACCI512 the stored radii are `secondRadius = 255`, `minuteRadius = 128` and
`hourRadius = 192`, so `minuteRadius > hourRadius` fails; on the four smaller spiral boards the
three radii are strictly decreasing. -/
theorem clock_radii_512_not_decreasing :
    (secondRadius FIBONACCI512.NUM_PIXELS).val = 255 ∧
    (minuteRadius FIBONACCI512.NUM_PIXELS).val = 128 ∧
    (hourRadius FIBONACCI512.NUM_PIXELS).val = 192 ∧
    ¬ (minuteRadius FIBONACCI512.NUM_PIXELS > hourRadius FIBONACCI512.NUM_PIXELS) ∧
    (∀ B ∈ [fibonacci256, fibonacci128, fibonacci64, fibonacci32],
      secondRadius B.NUM_PIXELS > minuteRadius B.NUM_PIXELS ∧
      minuteRadius B.NUM_PIXELS > hourRadius B.NUM_PIXELS) := by
  decide

/-- C23: `angles[0]` is 205 on FIBONACCI512 and 255 on FIBONACCI32; it is 0 on FIBONACCI256,
FIBONACCI128, FIBONACCI64 and KRAKEN64. -/
theorem angles_first_element :
    FIBONACCI512.angles.getD 0 0 = 205 ∧ FIBONACCI32.angles.getD 0 0 = 255 ∧
    FIBONACCI256.angles.getD 0 0 = 0 ∧ FIBONACCI128.angles.getD 0 0 = 0 ∧
    FIBONACCI64.angles.getD 0 0 = 0 ∧ KRAKEN64.angles.getD 0 0 = 0 := by
  decide


/-- C24: with the palette lookup `palette` and the phase `beat8` as abstract inputs, each palette
effect sets every pixel `i` below `NUM_PIXELS` to `palette((phase - key_i) mod 256)`, the key
entering with multiplier 1: `angles[i]` for `anglePalette`, `coordsX[i]` for `xPalette`,
`coordsY[i]` for `yPalette`, `coordsX[i] + coordsY[i]` for `xyPalette` and, for `radiusPalette`,
the rescaled radius `radiusProxy[i] * RADII_SCALE_MULTIPLIER / RADII_SCALE_DIVISOR` narrowed to
`uint8_t` (the divisor being non-zero); pixels beyond are untouched, and each gradient variant
is the same function of its palette. -/
theorem palette_effects (M : CoordinateMap) (L : Layout) (multiplier divisor : U8)
    (palette : U8 → CRGB) (beat8 : Nat → U8) (leds : List CRGB) :
    (∀ i : Nat, (anglePalette M palette beat8 leds)[i]? =
      if i < M.NUM_PIXELS then
        (leds[i]?).map (fun _ => palette (intToU8 (((beat8 i).val : Int) - (M.angles.getD i 0 : Nat))))
      else leds[i]?) ∧
    (∀ i : Nat, (xPalette M palette beat8 leds)[i]? =
      if i < M.NUM_PIXELS then
        (leds[i]?).map (fun _ => palette (intToU8 (((beat8 i).val : Int) - (M.coordsX.getD i 0 : Nat))))
      else leds[i]?) ∧
    (∀ i : Nat, (yPalette M palette beat8 leds)[i]? =
      if i < M.NUM_PIXELS then
        (leds[i]?).map (fun _ => palette (intToU8 (((beat8 i).val : Int) - (M.coordsY.getD i 0 : Nat))))
      else leds[i]?) ∧
    (∀ i : Nat, (xyPalette M palette beat8 leds)[i]? =
      if i < M.NUM_PIXELS then
        (leds[i]?).map (fun _ => palette (intToU8 (((beat8 i).val : Int) -
          (((M.coordsX.getD i 0 : Nat) : Int) + (M.coordsY.getD i 0 : Nat)))))
      else leds[i]?) ∧
    (0 < divisor.val → ∀ i : Nat, (radiusPalette L multiplier divisor palette beat8 leds)[i]? =
      if i < L.NUM_PIXELS then
        (leds[i]?).map (fun _ => palette (intToU8 (((beat8 i).val : Int) -
          ((L.radiusProxy.getD i 0 * multiplier.val / divisor.val % 256 : Nat) : Int))))
      else leds[i]?) ∧
    angleGradientPalette M palette beat8 leds = anglePalette M palette beat8 leds ∧
    xGradientPalette M palette beat8 leds = xPalette M palette beat8 leds ∧
    yGradientPalette M palette beat8 leds = yPalette M palette beat8 leds ∧
    xyGradientPalette M palette beat8 leds = xyPalette M palette beat8 leds ∧
    radiusGradientPalette L multiplier divisor palette beat8 leds =
      radiusPalette L multiplier divisor palette beat8 leds := by
  refine ⟨fun i => ?_, fun i => ?_, fun i => ?_, fun i => ?_, fun _ i => ?_,
    rfl, rfl, rfl, rfl, rfl⟩
  · unfold anglePalette
    simp only [intToU8_sub_toU8]
    exact foldl_range_set_getElem? _ _ _ _
  · unfold xPalette
    simp only [intToU8_sub_toU8]
    exact foldl_range_set_getElem? _ _ _ _
  · unfold yPalette
    simp only [intToU8_sub_toU8]
    exact foldl_range_set_getElem? _ _ _ _
  · unfold xyPalette
    simp only [intToU8_sub_toU8_add]
    exact foldl_range_set_getElem? _ _ _ _
  · unfold radiusPalette
    simp only [mul_one, radiusPalette_r, toU8]
    exact foldl_range_set_getElem? _ _ _ _

theorem palette_effects_witness :
    0 < (RADII_SCALE_DIVISOR FIBONACCI32.NUM_PIXELS).val ∧
    (radiusPalette FIBONACCI32.layout (RADII_SCALE_MULTIPLIER FIBONACCI32.NUM_PIXELS)
        (RADII_SCALE_DIVISOR FIBONACCI32.NUM_PIXELS) (CRGB.mk 0 0) toU8 (blackLeds 34))[33]? =
      if 33 < FIBONACCI32.layout.NUM_PIXELS then
        ((blackLeds 34)[33]?).map (fun _ => CRGB.mk 0 0 (intToU8 (((toU8 33).val : Int) -
          ((FIBONACCI32.layout.radiusProxy.getD 33 0 *
              (RADII_SCALE_MULTIPLIER FIBONACCI32.NUM_PIXELS).val /
              (RADII_SCALE_DIVISOR FIBONACCI32.NUM_PIXELS).val % 256 : Nat) : Int))))
      else (blackLeds 34)[33]? :=
  ⟨by decide,
   (palette_effects ⟨0, [], [], []⟩ FIBONACCI32.layout
      (RADII_SCALE_MULTIPLIER FIBONACCI32.NUM_PIXELS) (RADII_SCALE_DIVISOR FIBONACCI32.NUM_PIXELS)
      (CRGB.mk 0 0) toU8 (blackLeds 34)).2.2.2.2.1 (by decide) 33⟩


/-- C25: on every spiral board, for a stride `n >= 1` and a start pixel `s` of rank `f0 >= n`,
with `m = f0 / n`: the walk runs its body at the ranks `f0, f0 - n, ..., f0 - (m - 1) * n`; the
call returns the buffer after the `1 + m` additive writes of `inwardWrites`; the start pixel is
written twice, so each of its channels becomes `min(255, old + 2*c)`; and the pixel of the
innermost rank `f0 - m * n`, which is below `n`, is never written. -/
theorem drawSpiralLine_inward_writes (B : SpiralBoard) (hB : B ∈ spiralBoards) (angle : U8)
    (step : Int) (color : CRGB) (leds : List CRGB) (n s f0 : Nat)
    (hstep : step = (n : Int)) (hn : 1 ≤ n) (hhi : step ≤ 2147483647)
    (hs : s = (drawSpiralLine.search B angle step).1)
    (hf0 : f0 = B.physicalToFibonacci.getD s 0) (hge : n ≤ f0) :
    1 ≤ f0 / n ∧ f0 - f0 / n * n < n ∧
    (∀ fuel : Nat, f0 / n < fuel →
      drawSpiralLine.ranks B step fuel f0 =
        (List.range (f0 / n)).map (fun k : Nat => (f0 : Int) - k * step)) ∧
    (∀ fuel : Nat, f0 / n < fuel →
      drawSpiralLine B angle step color leds fuel =
        some (applyWrites color (inwardWrites B s n) leds)) ∧
    (inwardWrites B s n).length = 1 + f0 / n ∧
    (inwardWrites B s n).count s = 2 ∧
    B.fibonacciToPhysical.getD (f0 - f0 / n * n) 0 ∉ inwardWrites B s n ∧
    (applyWrites color (inwardWrites B s n) leds)[s]? =
      (leds[s]?).map (fun old => old.addTwice color) ∧
    (applyWrites color (inwardWrites B s n) leds)[B.fibonacciToPhysical.getD (f0 - f0 / n * n) 0]? =
      leds[B.fibonacciToPhysical.getD (f0 - f0 / n * n) 0]? := by
  obtain ⟨hpos, hN⟩ := spiralBoards_bounds B hB
  have hsN : s < B.NUM_PIXELS := hs ▸ search_fst_lt B hpos angle step
  have hfN : f0 < B.NUM_PIXELS := hf0 ▸ physicalToFibonacci_getD_lt B hB s
  have hnpos : 0 < n := by omega
  subst hstep
  obtain ⟨rest, hshape, hnot, hinner⟩ := inwardWrites_shape B hB s n hsN hn (hf0 ▸ hge)
  rw [← hf0] at hinner
  refine ⟨Nat.div_pos hge hnpos, ?_, ?_, ?_, ?_, ?_, ?_, ?_, ?_⟩
  · have := Nat.mod_lt f0 hnpos
    have e := Nat.div_add_mod' f0 n
    omega
  · intro fuel hfuel
    exact (ranks_map_eq B hN n f0 hn hhi hfN fuel hfuel).1
  · intro fuel hfuel
    obtain ⟨hr, hmap⟩ := ranks_map_eq B hN n f0 hn hhi hfN fuel hfuel
    have hlen : (drawSpiralLine.ranks B n fuel f0).length < fuel := by
      rw [hr, List.length_map, List.length_range]
      exact hfuel
    unfold drawSpiralLine
    dsimp only
    rw [← hs, ← hf0, walk_of_ranks_length_lt B n color fuel f0 _ hlen, hmap]
    unfold inwardWrites
    rw [← hf0]
    rfl
  · unfold inwardWrites
    rw [← hf0, List.length_cons, List.length_map, List.length_range]
    omega
  · rw [hshape, List.count_cons_self, List.count_cons_self, List.count_eq_zero_of_not_mem hnot]
  · rw [hshape]
    exact hinner
  · rw [hshape]
    exact getElem?_applyWrites_twice color s rest hnot leds
  · rw [hshape]
    exact getElem?_applyWrites_of_not_mem color _ _ hinner leds

theorem drawSpiralLine_inward_writes_witness :
    fibonacci32 ∈ spiralBoards ∧ (13 : Int) = ((13 : Nat) : Int) ∧
    33 = (drawSpiralLine.search fibonacci32 0 13).1 ∧
    21 = fibonacci32.physicalToFibonacci.getD 33 0 ∧
    drawSpiralLine fibonacci32 0 13 color4 (blackLeds 34) 2 =
      some (applyWrites color4 (inwardWrites fibonacci32 33 13) (blackLeds 34)) ∧
    (inwardWrites fibonacci32 33 13).count 33 = 2 :=
  ⟨by simp [spiralBoards], by decide, by decide, by decide,
   (drawSpiralLine_inward_writes fibonacci32 (by simp [spiralBoards]) 0 13 color4 (blackLeds 34)
     13 33 21 (by decide) (by decide) (by decide) (by decide) (by decide) (by decide)).2.2.2.1 2
     (by decide),
   (drawSpiralLine_inward_writes fibonacci32 (by simp [spiralBoards]) 0 13 color4 (blackLeds 34)
     13 33 21 (by decide) (by decide) (by decide) (by decide) (by decide)
     (by decide)).2.2.2.2.2.1⟩

/-- C26: on every spiral board, when every candidate has an angle numerically greater than the
target (in particular when there is no candidate), `drawSpiralLine` starts at physical index 0
whatever the target angle; and no pixel is a candidate when `step >= NUM_PIXELS` or
`step <= 0`. -/
theorem drawSpiralLine_start_default (B : SpiralBoard) (hB : B ∈ spiralBoards) (angle : U8)
    (step : Int) (hlo : -2147483648 ≤ step) (hhi : step ≤ 2147483647) :
    ((∀ i, Candidate B step i → angle.val < B.angles.getD i 0) →
      (drawSpiralLine.search B angle step).1 = 0) ∧
    ((∀ i, ¬ Candidate B step i) → (drawSpiralLine.search B angle step).1 = 0) ∧
    (((B.NUM_PIXELS : Int) ≤ step ∨ step ≤ 0) → ∀ i, ¬ Candidate B step i) := by
  have hlt := physicalToFibonacci_getD_lt B hB
  refine ⟨fun h => ?_, fun h => ?_, fun h i hc => ?_⟩
  · rw [search_eq_init_of_above B hB angle step hlo h]
  · rw [search_eq_init_of_above B hB angle step hlo (fun i hc => absurd hc (h i))]
  · have := hlt i
    obtain ⟨_, h1, h2⟩ := hc
    omega

theorem drawSpiralLine_start_default_witness :
    fibonacci64 ∈ spiralBoards ∧
    (∀ i, Candidate fibonacci64 13 i → (0 : U8).val < fibonacci64.angles.getD i 0) ∧
    (drawSpiralLine.search fibonacci64 0 13).1 = 0 :=
  ⟨by simp [spiralBoards],
   fun i hc => by
     have h : ∀ i : Nat, i < 64 → Candidate fibonacci64 13 i →
       (0 : U8).val < fibonacci64.angles.getD i 0 := by decide
     exact h i hc.1 hc,
   (drawSpiralLine_start_default fibonacci64 (by simp [spiralBoards]) 0 13 (by decide)
     (by decide)).1 (fun i hc => by
       have h : ∀ i : Nat, i < 64 → Candidate fibonacci64 13 i →
         (0 : U8).val < fibonacci64.angles.getD i 0 := by decide
       exact h i hc.1 hc)⟩

/-- C27: on FIBONACCI512 `physicalToFibonacci[0]` is 510, physical index 0 is an outermost pixel
and the centre (rank 0) is physical index 15; on the four smaller spiral boards
`physicalToFibonacci[0] = 0`. -/
theorem physical_zero_not_centre_512 :
    FIBONACCI512.physicalToFibonacci.getD 0 0 = 510 ∧
    FIBONACCI512.fibonacciToPhysical.getD 0 0 = 15 ∧
    (∀ B ∈ [fibonacci256, fibonacci128, fibonacci64, fibonacci32],
      B.physicalToFibonacci.getD 0 0 = 0) := by
  decide


/-- C28: two `andPixelAR` calls give the same buffer in either order, and so do two
`antialiasPixelAR` calls (the same result, or failure in both orders). -/
theorem additive_selectors_commute (L : Layout) (a1 d1 s1 e1 a2 d2 s2 e2 : U8) (c1 c2 : CRGB)
    (leds : List CRGB) :
    andPixelAR L a2 d2 s2 e2 c2 (andPixelAR L a1 d1 s1 e1 c1 leds) =
      andPixelAR L a1 d1 s1 e1 c1 (andPixelAR L a2 d2 s2 e2 c2 leds) ∧
    (antialiasPixelAR L a1 d1 s1 e1 c1 leds L.NUM_PIXELS).bind
        (fun mid => antialiasPixelAR L a2 d2 s2 e2 c2 mid L.NUM_PIXELS) =
      (antialiasPixelAR L a2 d2 s2 e2 c2 leds L.NUM_PIXELS).bind
        (fun mid => antialiasPixelAR L a1 d1 s1 e1 c1 mid L.NUM_PIXELS) := by
  constructor
  · apply List.ext_getElem?
    intro j
    simp only [andPixelAR_getElem?]
    exact ite_map_comm _ _ _ _ (fun p => CRGB.add_right_comm p c1 c2) _
  · cases hA : antialiasPixelAR L a1 d1 s1 e1 c1 leds L.NUM_PIXELS with
    | none =>
      have hcA := (antialiasPixelAR_eq_none_iff L a1 d1 s1 e1 c1 leds).mp hA
      cases hB : antialiasPixelAR L a2 d2 s2 e2 c2 leds L.NUM_PIXELS with
      | none => rfl
      | some lb =>
        simp only [Option.none_bind, Option.some_bind]
        exact ((antialiasPixelAR_eq_none_iff L a1 d1 s1 e1 c1 lb).mpr hcA).symm
    | some la =>
      cases hB : antialiasPixelAR L a2 d2 s2 e2 c2 leds L.NUM_PIXELS with
      | none =>
        have hcB := (antialiasPixelAR_eq_none_iff L a2 d2 s2 e2 c2 leds).mp hB
        simp only [Option.none_bind, Option.some_bind]
        exact (antialiasPixelAR_eq_none_iff L a2 d2 s2 e2 c2 la).mpr hcB
      | some lb =>
        simp only [Option.some_bind]
        cases hAB : antialiasPixelAR L a2 d2 s2 e2 c2 la L.NUM_PIXELS with
        | none =>
          have hc := (antialiasPixelAR_eq_none_iff L a2 d2 s2 e2 c2 la).mp hAB
          have := (antialiasPixelAR_eq_none_iff L a2 d2 s2 e2 c2 leds).mpr hc
          rw [hB] at this
          exact absurd this (by simp)
        | some lab =>
          cases hBA : antialiasPixelAR L a1 d1 s1 e1 c1 lb L.NUM_PIXELS with
          | none =>
            have hc := (antialiasPixelAR_eq_none_iff L a1 d1 s1 e1 c1 lb).mp hBA
            have := (antialiasPixelAR_eq_none_iff L a1 d1 s1 e1 c1 leds).mpr hc
            rw [hA] at this
            exact absurd this (by simp)
          | some lba =>
            congr 1
            apply List.ext_getElem?
            intro j
            rw [antialiasPixelAR_getElem? L a2 d2 s2 e2 c2 la _ lab hAB j,
              antialiasPixelAR_getElem? L a1 d1 s1 e1 c1 leds _ la hA j,
              antialiasPixelAR_getElem? L a1 d1 s1 e1 c1 lb _ lba hBA j,
              antialiasPixelAR_getElem? L a2 d2 s2 e2 c2 leds _ lb hB j]
            exact ite_map_comm _ _ _ _ (fun p => CRGB.add_right_comm p _ _) _

/-- C29 fails as stated: on FIBONACCI512 pixel 68 has `radiusProxy[68] = 256`, outside the band
`[0, 0]`, yet with `dAngle = 255` both `setPixelAR(7, 255, 0, 0, color)` and
`andPixelAR(7, 255, 0, 0, color)` write it. -/
theorem full_ring_writes_outside_band_512 :
    128 ≤ (255 : U8).val ∧
    FIBONACCI512.layout.radiusProxy.getD 68 0 = 256 ∧
    ¬ ((qsub8 0 0).val ≤ FIBONACCI512.layout.radiusProxy.getD 68 0 ∧
        FIBONACCI512.layout.radiusProxy.getD 68 0 ≤ (qadd8 0 0).val) ∧
    ¬ ((0 : U8).val ≤ FIBONACCI512.layout.radiusProxy.getD 68 0 ∧
        FIBONACCI512.layout.radiusProxy.getD 68 0 ≤ (0 : U8).val) ∧
    (blackLeds 512)[68]? = some ⟨0, 0, 0⟩ ∧
    (setPixelAR FIBONACCI512.layout 7 255 0 0 color4 (blackLeds 512))[68]? = some color4 ∧
    (andPixelAR FIBONACCI512.layout 7 255 0 0 color4 (blackLeds 512))[68]? = some color4 ∧
    color4 ≠ ⟨0, 0, 0⟩ := by
  have hb : (blackLeds 512)[68]? = some ⟨0, 0, 0⟩ :=
    blackLeds_getElem? 512 68 (by decide)
  refine ⟨by decide, by decide, by decide, by decide, hb, ?_, ?_, by decide⟩
  · rw [setPixelAR_getElem?, if_pos (by decide), hb]
    rfl
  · rw [andPixelAR_getElem?, if_pos (by decide), hb]
    rfl

/-- C29, amended: with an angle tolerance `dAngle >= 128` the angular test always passes:
`setPixelAR` and `andPixelAR` then write a pixel `i` whose entry `radiusProxy[i]` is below 256
exactly when `radiusProxy[i]` lies in the band, whatever its angle. -/
theorem full_ring_of_ge_128 (L : Layout) (angle dAngle r1 r2 : U8) (color : CRGB)
    (leds : List CRGB) (hd : 128 ≤ dAngle.val) :
    (∀ a b : U8, (min (sub8 a b) (sub8 b a)).val ≤ dAngle.val) ∧
    (∀ i : Nat, L.radiusProxy.getD i 0 < 256 →
      (setPixelAR L angle dAngle r1 r2 color leds)[i]? =
      if i < L.NUM_PIXELS ∧ (qsub8 r1 r2).val ≤ L.radiusProxy.getD i 0 ∧
        L.radiusProxy.getD i 0 ≤ (qadd8 r1 r2).val
      then (leds[i]?).map (fun _ => color) else leds[i]?) ∧
    (∀ i : Nat, L.radiusProxy.getD i 0 < 256 →
      (andPixelAR L angle dAngle r1 r2 color leds)[i]? =
      if i < L.NUM_PIXELS ∧ r1.val ≤ L.radiusProxy.getD i 0 ∧ L.radiusProxy.getD i 0 ≤ r2.val
      then (leds[i]?).map (fun c => c.add color) else leds[i]?) := by
  refine ⟨fun a b => ?_, fun i hi => ?_, fun i hi => ?_⟩
  · have ha := a.isLt
    have hb := b.isLt
    rw [Fin.coe_min]
    simp only [sub8]
    omega
  · rw [setPixelAR_getElem?, ← L.ro_val_of_lt i hi]
    exact if_congr (and_congr_right fun _ => selected_iff_band_of_ge_128 L angle dAngle _ _ hd i)
      rfl rfl
  · rw [andPixelAR_getElem?, ← L.ro_val_of_lt i hi]
    exact if_congr (and_congr_right fun _ => selected_iff_band_of_ge_128 L angle dAngle _ _ hd i)
      rfl rfl

theorem full_ring_of_ge_128_witness :
    128 ≤ (128 : U8).val ∧ layout4.radiusProxy.getD 2 0 < 256 ∧
    (andPixelAR layout4 0 128 1 2 color4 leds4)[2]? =
      if 2 < layout4.NUM_PIXELS ∧ (1 : U8).val ≤ layout4.radiusProxy.getD 2 0 ∧
        layout4.radiusProxy.getD 2 0 ≤ (2 : U8).val
      then (leds4[2]?).map (fun c => c.add color4) else leds4[2]? :=
  ⟨by decide, by decide,
   (full_ring_of_ge_128 layout4 0 128 1 2 color4 leds4 (by decide)).2.2 2 (by decide)⟩

end FibonacciMap
